import Mathlib

/-!
Verification development for the aeron-go client data path: the atomic
buffer (bounds-checked raw memory), the many-to-one ring buffer
(manytoone.go), and the log-buffer reader Image (image.go).

Shared memory is modelled as a total byte map from integer addresses to
byte values.  Multi-byte accessors store and load little-endian words,
mirroring the raw pointer accesses of the Go atomic.Buffer.  Signed 32/64
bit machine integers are modelled as mathematical integers together with
explicit reductions modulo powers of two at the points where the Go code
converts or wraps.
-/

namespace Aeron

/-- Byte-addressed memory: a total map from addresses to byte values. -/
def Mem : Type := Int → Nat

/-- Reduction of an integer to the signed 32-bit value it denotes in Go,
mirroring a Go int32 conversion of a wider value. -/
def toInt32 (x : Int) : Int := (x + 2 ^ 31) % 2 ^ 32 - 2 ^ 31

/-- Unsigned 32-bit view of a signed value, as used when packing an int32
field into a wider word. -/
def u32 (v : Int) : Nat := (v % 2 ^ 32).toNat

/-- Unsigned 64-bit view of a signed value, mirroring a Go uint64 cast. -/
def u64 (v : Int) : Nat := (v % 2 ^ 64).toNat

/-- Signed interpretation of an unsigned 32-bit word. -/
def i32ofU (u : Nat) : Int :=
  if u % 2 ^ 32 < 2 ^ 31 then ((u % 2 ^ 32 : Nat) : Int)
  else ((u % 2 ^ 32 : Nat) : Int) - 2 ^ 32

/-- Signed interpretation of an unsigned 64-bit word. -/
def i64ofU (u : Nat) : Int :=
  if u % 2 ^ 64 < 2 ^ 63 then ((u % 2 ^ 64 : Nat) : Int)
  else ((u % 2 ^ 64 : Nat) : Int) - 2 ^ 64

/-- Bitwise AND of a 64-bit value with a non-negative mask, mirroring the
Go expression v AND mask on int64 operands: the two's-complement AND with a
non-negative mask equals the AND of the low 64 unsigned bits with the mask. -/
def andMask (v m : Int) : Int := ((u64 v &&& m.toNat : Nat) : Int)

/-- Byte k of the little-endian encoding of an unsigned word. -/
def byteOf (u : Nat) (k : Nat) : Nat := u / 2 ^ (8 * k) % 2 ^ 8

/-- Store an n-byte little-endian word at an address. -/
def putWord (m : Mem) (off : Int) (n : Nat) (u : Nat) : Mem :=
  fun a => if off ≤ a ∧ a < off + n then byteOf u (a - off).toNat else m a

/-- Load an n-byte little-endian word from an address. -/
def getWord (m : Mem) (off : Int) (n : Nat) : Nat :=
  ∑ k ∈ Finset.range n, m (off + k) * 2 ^ (8 * k)

/-- Load of a 32-bit value, as atomic.Buffer GetInt32 and GetInt32Volatile. -/
def getInt32 (m : Mem) (off : Int) : Int := i32ofU (getWord m off 4)

/-- Load of a 64-bit value, as atomic.Buffer GetInt64 and GetInt64Volatile. -/
def getInt64 (m : Mem) (off : Int) : Int := i64ofU (getWord m off 8)

/-- Store of a 32-bit value, as atomic.Buffer PutInt32 and PutInt32Ordered. -/
def putInt32 (m : Mem) (off : Int) (v : Int) : Mem := putWord m off 4 (u32 v)

/-- Store of a 64-bit value, as atomic.Buffer PutInt64 and PutInt64Ordered. -/
def putInt64 (m : Mem) (off : Int) (v : Int) : Mem := putWord m off 8 (u64 v)

/-- Bulk byte copy, as atomic.Buffer PutBytes (a memcpy from a source
buffer at a source index). -/
def putBytes (m : Mem) (idx : Int) (src : Mem) (srcIdx : Int) (len : Int) : Mem :=
  fun a => if idx ≤ a ∧ a < idx + len then src (srcIdx + (a - idx)) else m a

/-- The list of len bytes stored from an address upward. -/
def bytesList (m : Mem) (off : Int) (len : Int) : List Nat :=
  (List.range len.toNat).map fun k : Nat => m (off + (k : Int))

/- Arithmetic bridge lemmas between the machine-level operations and plain
integer arithmetic. -/

theorem toInt32_of_bounds (x : Int) (h1 : -(2 ^ 31) ≤ x) (h2 : x < 2 ^ 31) :
    toInt32 x = x := by
  unfold toInt32
  omega

theorem andMask_pow2 (v : Int) (k : Nat) (h0 : 0 ≤ v) (h1 : v < 2 ^ 63) :
    andMask v (2 ^ k - 1) = v % 2 ^ k := by
  unfold andMask u64
  have hv64 : v % 2 ^ 64 = v := by omega
  have hp : (0 : Int) < 2 ^ k := by positivity
  have hc : ((2 ^ k : Nat) : Int) = (2 : Int) ^ k := by push_cast; ring
  have hm : ((2 : Int) ^ k - 1).toNat = 2 ^ k - 1 := by omega
  rw [hv64, hm, Nat.and_pow_two_sub_one_eq_mod]
  push_cast [Int.toNat_of_nonneg h0]
  ring

theorem i32ofU_u32 (v : Int) (h1 : -(2 ^ 31) ≤ v) (h2 : v < 2 ^ 31) :
    i32ofU (u32 v) = v := by
  unfold i32ofU u32
  split <;> omega

theorem u64_i64ofU (u : Nat) (h : u < 2 ^ 64) : u64 (i64ofU u) = u := by
  unfold u64 i64ofU
  split <;> omega

theorem u32_lt (v : Int) : u32 v < 2 ^ 32 := by
  unfold u32
  omega

theorem sum_byteOf (u : Nat) : ∀ n : Nat,
    (∑ k ∈ Finset.range n, byteOf u k * 2 ^ (8 * k)) = u % 2 ^ (8 * n) := by
  intro n
  induction n with
  | zero => simp [Nat.mod_one]
  | succ n ih =>
    rw [Finset.sum_range_succ, ih]
    unfold byteOf
    have hpow : (2 : Nat) ^ (8 * (n + 1)) = 2 ^ (8 * n) * 2 ^ 8 := by
      rw [← pow_add]; ring_nf
    rw [hpow, Nat.mod_mul]
    ring

theorem byteOf_add (u j k : Nat) : byteOf u (j + k) = byteOf (u / 2 ^ (8 * j)) k := by
  unfold byteOf
  rw [Nat.div_div_eq_div_mul, ← pow_add]
  ring_nf

theorem getWord_putWord_at (m : Mem) (off : Int) (n u : Nat) (j mlen : Nat)
    (h : j + mlen ≤ n) :
    getWord (putWord m off n u) (off + j) mlen = u / 2 ^ (8 * j) % 2 ^ (8 * mlen) := by
  unfold getWord
  have hcong : ∀ k ∈ Finset.range mlen,
      putWord m off n u (off + j + k) * 2 ^ (8 * k) =
        byteOf (u / 2 ^ (8 * j)) k * 2 ^ (8 * k) := by
    intro k hk
    have hk' : k < mlen := Finset.mem_range.mp hk
    unfold putWord
    have hin : off ≤ off + j + k ∧ off + j + k < off + n := by
      constructor <;> [omega; omega]
    rw [if_pos hin]
    have hidx : ((off + j + k) - off).toNat = j + k := by omega
    rw [hidx, byteOf_add]
  rw [Finset.sum_congr rfl hcong, sum_byteOf]

theorem putWord_apply_outside (m : Mem) (off : Int) (n u : Nat) (a : Int)
    (h : a < off ∨ off + n ≤ a) : putWord m off n u a = m a := by
  unfold putWord
  rw [if_neg]
  omega

theorem putBytes_apply_in (m : Mem) (idx : Int) (src : Mem) (srcIdx len a : Int)
    (h1 : idx ≤ a) (h2 : a < idx + len) :
    putBytes m idx src srcIdx len a = src (srcIdx + (a - idx)) := by
  unfold putBytes
  rw [if_pos ⟨h1, h2⟩]

theorem putBytes_apply_outside (m : Mem) (idx : Int) (src : Mem) (srcIdx len a : Int)
    (h : a < idx ∨ idx + len ≤ a) : putBytes m idx src srcIdx len a = m a := by
  unfold putBytes
  rw [if_neg]
  omega

theorem getWord_congr_of_eq (m m' : Mem) (off : Int) (n : Nat)
    (h : ∀ a : Int, off ≤ a → a < off + n → m' a = m a) :
    getWord m' off n = getWord m off n := by
  unfold getWord
  refine Finset.sum_congr rfl fun k hk => ?_
  have hk' : k < n := Finset.mem_range.mp hk
  rw [h (off + k) (by omega) (by omega)]

theorem getWord_putWord_outside (m : Mem) (off : Int) (n u : Nat) (off2 : Int) (mlen : Nat)
    (h : off2 + mlen ≤ off ∨ off + n ≤ off2) :
    getWord (putWord m off n u) off2 mlen = getWord m off2 mlen := by
  refine getWord_congr_of_eq m (putWord m off n u) off2 mlen fun a ha1 ha2 => ?_
  exact putWord_apply_outside m off n u a (by omega)

theorem getWord_putBytes_outside (m : Mem) (idx : Int) (src : Mem) (srcIdx len : Int)
    (off2 : Int) (mlen : Nat) (h : off2 + mlen ≤ idx ∨ idx + len ≤ off2) :
    getWord (putBytes m idx src srcIdx len) off2 mlen = getWord m off2 mlen := by
  refine getWord_congr_of_eq m (putBytes m idx src srcIdx len) off2 mlen fun a ha1 ha2 => ?_
  exact putBytes_apply_outside m idx src srcIdx len a (by omega)

/- Record framing shared by the ring buffer and the log buffer.

Modelled from the spec: the record descriptor and header codec of the
ring buffer package are not part of the supplied sources; the spec fixes
the wire contract as a leading 32-bit length field and a 32-bit type
field packed as a single 64-bit word followed by the payload, with the
record aligned to a fixed 8-byte alignment boundary (the concrete
scenario in the spec uses headerSize 8 and alignment 8), and a reserved
padding type id marking a record to skip. -/

/-- Sentinel returned by claimCapacity on a full buffer (manytoone.go). -/
def InsufficientCapacity : Int := -2

/-- Modelled from the spec: header size of a framed record, 8 bytes. -/
def HeaderLength : Int := 8

/-- Modelled from the spec: record alignment boundary, 8 bytes. -/
def RecordAlignment : Int := 8

/-- Modelled from the spec: the reserved message type id marking a
padding record. -/
def PaddingMsgTypeID : Int := -1

/-- Modelled from the spec: offset of the 32-bit length field of a record. -/
def lengthOffset (recordIndex : Int) : Int := recordIndex

/-- Modelled from the spec: offset of the 32-bit type field of a record. -/
def typeOffset (recordIndex : Int) : Int := recordIndex + 4

/-- Modelled from the spec: offset of the payload of a record. -/
def encodedMsgOffset (recordIndex : Int) : Int := recordIndex + HeaderLength

/-- Modelled from the spec: the length and type fields packed as a single
64-bit word, length in the low half so that a little-endian store places
it first. -/
def MakeHeader (length msgTypeID : Int) : Int :=
  i64ofU (u32 msgTypeID * 2 ^ 32 + u32 length)

/-- Modelled from the spec: rounding a value up to an alignment boundary,
as the util.AlignInt32 helper used by Write. -/
def align (value alignment : Int) : Int := (value + alignment - 1) / alignment * alignment

/-- Modelled from the spec: a message type id is valid when it lies in the
application-defined range, which excludes non-positive ids; CheckMsgTypeID
rejects an invalid id before any state is touched. -/
def CheckMsgTypeID (msgTypeID : Int) : Bool := 1 ≤ msgTypeID

/-- Modelled from the spec: the power-of-two test of the util package,
called by Init on the derived payload capacity. -/
def IsPowerOfTwo (value : Int) : Bool := decide (0 < value) && (value.toNat &&& (value.toNat - 1) == 0)

/-- Cache line length used to lay out the trailer fields (util package). -/
def CacheLineLength : Int := 64

/-- Byte offset of the tail position counter within the trailer. -/
def tailPositionOffset : Int := CacheLineLength * 2

/-- Byte offset of the cached head position within the trailer. -/
def headCachePositionOffset : Int := CacheLineLength * 4

/-- Byte offset of the head position counter within the trailer. -/
def headPositionOffset : Int := CacheLineLength * 6

/-- Byte offset of the correlation counter within the trailer. -/
def correlationCounterOffset : Int := CacheLineLength * 8

/-- Byte offset of the consumer heartbeat field within the trailer. -/
def consumerHeartbeatOffset : Int := CacheLineLength * 10

/-- Total length of the trailer region holding the counters. -/
def trailerLength : Int := CacheLineLength * 12

theorem u64_MakeHeader (length msgTypeID : Int) :
    u64 (MakeHeader length msgTypeID) = u32 msgTypeID * 2 ^ 32 + u32 length := by
  unfold MakeHeader
  exact u64_i64ofU _ (by have := u32_lt msgTypeID; have := u32_lt length; omega)

theorem getWord_putWord_at_zero (m : Mem) (off : Int) (n u : Nat) (mlen : Nat)
    (h : mlen ≤ n) :
    getWord (putWord m off n u) off mlen = u % 2 ^ (8 * mlen) := by
  have h := getWord_putWord_at m off n u 0 mlen (by omega)
  simpa using h

theorem getInt32_putInt64_header_low (m : Mem) (off : Int) (length msgTypeID : Int)
    (h1 : -(2 ^ 31) ≤ length) (h2 : length < 2 ^ 31) :
    getInt32 (putInt64 m off (MakeHeader length msgTypeID)) off = length := by
  unfold getInt32 putInt64
  rw [getWord_putWord_at_zero m off 8 _ 4 (by omega), u64_MakeHeader]
  have hu := u32_lt length
  have ht := u32_lt msgTypeID
  have hmod : (u32 msgTypeID * 2 ^ 32 + u32 length) % 2 ^ (8 * 4) = u32 length := by
    norm_num
    omega
  rw [hmod]
  exact i32ofU_u32 length h1 h2

theorem getInt32_putInt64_header_high (m : Mem) (off : Int) (length msgTypeID : Int)
    (h1 : -(2 ^ 31) ≤ msgTypeID) (h2 : msgTypeID < 2 ^ 31) :
    getInt32 (putInt64 m off (MakeHeader length msgTypeID)) (off + 4) = msgTypeID := by
  unfold getInt32 putInt64
  have h4 : (off + 4) = off + ((4 : Nat) : Int) := by norm_num
  rw [h4, getWord_putWord_at m off 8 _ 4 4 (by omega), u64_MakeHeader]
  have hu := u32_lt length
  have ht := u32_lt msgTypeID
  have hdiv : (u32 msgTypeID * 2 ^ 32 + u32 length) / 2 ^ (8 * 4) % 2 ^ (8 * 4)
      = u32 msgTypeID := by
    norm_num
    omega
  rw [hdiv]
  exact i32ofU_u32 msgTypeID h1 h2

theorem getInt32_putInt32_same (m : Mem) (off : Int) (v : Int)
    (h1 : -(2 ^ 31) ≤ v) (h2 : v < 2 ^ 31) :
    getInt32 (putInt32 m off v) off = v := by
  unfold getInt32 putInt32
  rw [getWord_putWord_at_zero m off 4 _ 4 (by omega)]
  have hu := u32_lt v
  have hmod : u32 v % 2 ^ (8 * 4) = u32 v := by
    norm_num
    omega
  rw [hmod]
  exact i32ofU_u32 v h1 h2

/-! The many-to-one ring buffer of manytoone.go.

The ManyToOne struct wraps an atomic.Buffer whose first capacity bytes
hold the circular record log and whose trailer holds the counters at the
fixed descriptor offsets (tail position, cached head, head position,
correlation counter, consumer heartbeat).  The trailer counters are
disjoint dedicated 64-bit cells, modelled here as named fields of the
state: tail mirrors the cell at tailPositionIndex, head the cell at
headPositionIndex and headCache the cell at headCachePositionIndex,
while mem holds the record region starting at offset 0.  The model runs
the producer sequentially, so the compare-and-set on the tail in
claimCapacity succeeds on its first attempt and the retry loop body
executes once. -/

structure ManyToOne where
  capacity : Int
  maxMsgLength : Int
  tail : Int
  head : Int
  headCache : Int
  mem : Mem

/-- Tail of claimCapacity once the record fits before the buffer end or
padding has been decided: the compare-and-set advances the tail by the
required capacity plus the padding, then the padding record header is
written at the pre-wrap tail index and the claimed index is reset to 0. -/
def claimCommit (s : ManyToOne) (tail tailIndex padding requiredCapacity : Int) :
    ManyToOne × Int :=
  ({ s with
      tail := tail + requiredCapacity + padding
      mem := putInt64 s.mem tailIndex (MakeHeader padding PaddingMsgTypeID) }, 0)

/-- Body of the claimCapacity loop after the capacity check, with head the
value the capacity check used (cached or refreshed): computes the tail
index within the circular buffer, decides whether the record would cross
the physical end, and re-checks the wrapped record against the head index,
refreshing the cached head once more if needed. -/
def claimWithHead (s : ManyToOne) (head tail requiredCapacity : Int) : ManyToOne × Int :=
  let mask := s.capacity - 1
  let tailIndex := toInt32 (andMask tail mask)
  let toBufferEndLength := s.capacity - tailIndex
  if requiredCapacity > toBufferEndLength then
    let headIndex := toInt32 (andMask head mask)
    if requiredCapacity > headIndex then
      let head2 := s.head
      let headIndex2 := toInt32 (andMask head2 mask)
      if requiredCapacity > headIndex2 then (s, InsufficientCapacity)
      else claimCommit { s with headCache := head2 } tail tailIndex toBufferEndLength
        requiredCapacity
    else claimCommit s tail tailIndex toBufferEndLength requiredCapacity
  else
    ({ s with tail := tail + requiredCapacity }, tailIndex)

/-- The claimCapacity algorithm of manytoone.go, sequential single pass:
reads the cached head and the live tail, checks the available capacity,
refreshing the cached head from the live head counter when the first
check fails, and either fails with InsufficientCapacity or claims the
range by advancing the tail. -/
def claimCapacity (s : ManyToOne) (requiredCapacity : Int) : ManyToOne × Int :=
  let head := s.headCache
  let tail := s.tail
  let availableCapacity := s.capacity - toInt32 (tail - head)
  if requiredCapacity > availableCapacity then
    let head2 := s.head
    if requiredCapacity > s.capacity - toInt32 (tail - head2) then
      (s, InsufficientCapacity)
    else claimWithHead { s with headCache := head2 } head2 tail requiredCapacity
  else claimWithHead s head tail requiredCapacity

/-- The Write operation of manytoone.go.  CheckMsgTypeID and
checkMsgLength raise a Go panic on violation, modelled as the none
result; otherwise the record length and aligned required capacity are
computed, the range is claimed, and on success the in-progress header
word, the payload bytes and finally the committed positive length are
stored in that order. -/
def manyToOneWrite (s : ManyToOne) (msgTypeID : Int) (srcBuffer : Mem)
    (srcIndex length : Int) : Option (ManyToOne × Bool) :=
  if ¬ CheckMsgTypeID msgTypeID then none
  else if length > s.maxMsgLength then none
  else
    let recordLength := length + HeaderLength
    let requiredCapacity := align recordLength RecordAlignment
    let claimed := claimCapacity s requiredCapacity
    let s1 := claimed.1
    let recordIndex := claimed.2
    if recordIndex ≠ InsufficientCapacity then
      let m1 := putInt64 s1.mem recordIndex (MakeHeader (-recordLength) msgTypeID)
      let m2 := putBytes m1 (encodedMsgOffset recordIndex) srcBuffer srcIndex length
      let m3 := putInt32 m2 (lengthOffset recordIndex) recordLength
      some ({ s1 with mem := m3 }, true)
    else some (s1, false)

/-- A fresh ring buffer over a zeroed mapped region: both counters start
at zero and the record region is all zeroes, with the capacity and
derived maximum message length as computed by Init. -/
def initialManyToOne (capacity : Int) : ManyToOne :=
  { capacity := capacity
    maxMsgLength := Int.tdiv capacity 8
    tail := 0
    head := 0
    headCache := 0
    mem := fun _ => 0 }

theorem align_ge_eight (v : Int) (h : 1 ≤ v) : 8 ≤ align v 8 := by
  unfold align
  omega

theorem align_of_multiple (v : Int) (h : v % 8 = 0) : align v 8 = v := by
  unfold align
  omega

/-- Modelled from the spec: the consumer-side Read scan of the many-to-one
ring buffer, whose Go body is unimplemented in the source.  Starting at
the cursor (the head position), each record header is read at the
cursor's index within the circular buffer; a non-positive length means a
record still in progress and stops the scan, a padding record is skipped
without invoking the handler, and any other record is delivered to the
handler as its type id paired with its payload bytes, until the message
count limit or the live tail is reached.  Returns the delivered messages
in order together with the final cursor. -/
def readScan (mem : Mem) (capacity tail : Int) (cursor : Int) (limit : Nat) :
    List (Int × List Nat) × Int :=
  if h1 : tail ≤ cursor then ([], cursor)
  else if h2 : limit = 0 then ([], cursor)
  else if h3 : getInt32 mem (lengthOffset (cursor % capacity)) ≤ 0 then ([], cursor)
  else if getInt32 mem (typeOffset (cursor % capacity)) = PaddingMsgTypeID then
    readScan mem capacity tail
      (cursor + align (getInt32 mem (lengthOffset (cursor % capacity))) RecordAlignment)
      limit
  else
    ((getInt32 mem (typeOffset (cursor % capacity)),
        bytesList mem (encodedMsgOffset (cursor % capacity))
          (getInt32 mem (lengthOffset (cursor % capacity)) - HeaderLength)) ::
      (readScan mem capacity tail
        (cursor + align (getInt32 mem (lengthOffset (cursor % capacity))) RecordAlignment)
        (limit - 1)).1,
      (readScan mem capacity tail
        (cursor + align (getInt32 mem (lengthOffset (cursor % capacity))) RecordAlignment)
        (limit - 1)).2)
termination_by (tail - cursor).toNat
decreasing_by
  all_goals
    have h8 : 8 ≤ align (getInt32 mem (lengthOffset (cursor % capacity))) 8 :=
      align_ge_eight _ (by omega)
    simp only [RecordAlignment]
    omega

/-- Modelled from the spec: the Read operation of the many-to-one ring
buffer delivers the scanned messages and publishes the new head position
with an ordered store, returning the count of messages processed. -/
def manyToOneRead (s : ManyToOne) (messageCountLimit : Nat) :
    ManyToOne × Int × List (Int × List Nat) :=
  let scanned := readScan s.mem s.capacity s.tail s.head messageCountLimit
  ({ s with head := scanned.2 }, scanned.1.length, scanned.1)

/-- The counter relation maintained by the ring buffer: the counters are
non-negative, the cached head never exceeds the live head, the head never
exceeds the tail, and the span from either head to the tail never exceeds
the capacity. -/
def RingInv (s : ManyToOne) : Prop :=
  0 ≤ s.headCache ∧ s.headCache ≤ s.head ∧ s.head ≤ s.tail ∧
    s.tail - s.head ≤ s.capacity ∧ s.tail - s.headCache ≤ s.capacity

/-! The log buffer reader of image.go. -/

/-- Sentinel returned by Poll on a closed Image. -/
def ImageClosed : Int := -1

/-- Modelled from the spec: the branch-free modulo-3 reduction of the
util package applied to a 64-bit term count. -/
def FastMod3 (value : Nat) : Int := ((value % 3 : Nat) : Int)

/-- The indexByPosition function of image.go: the position is cast to
uint64, shifted right by positionBitsToShift to obtain the term count,
and reduced modulo the fixed partition count of 3. -/
def indexByPosition (position : Int) (positionBitsToShift : Nat) : Int :=
  FastMod3 (u64 position >>> positionBitsToShift)

/-- Modelled from the spec: the term.Read scan of a single partition.
Starting at the term offset, each frame header is acquire-loaded; a
non-positive frame length means nothing more is available and stops the
scan, a padding frame is skipped and stops the scan for this call, and
any other frame is delivered to the handler, until the fragment limit or
the physical end of the partition is reached.  Returns the final offset,
the count of fragments delivered and the delivered (offset, length)
pairs. -/
def termRead (tb : Mem) (capacity : Int) (offset : Int) (fragmentLimit : Nat) :
    Int × Int × List (Int × Int) :=
  match fragmentLimit with
  | 0 => (offset, 0, [])
  | l + 1 =>
    if capacity ≤ offset then (offset, 0, [])
    else
      let frameLength := getInt32 tb (lengthOffset offset)
      if frameLength ≤ 0 then (offset, 0, [])
      else
        let frameType := getInt32 tb (typeOffset offset)
        let nextOffset := offset + align frameLength RecordAlignment
        if frameType = PaddingMsgTypeID then (nextOffset, 0, [])
        else
          let rest := termRead tb capacity nextOffset l
          (rest.1, rest.2.1 + 1, (offset, frameLength) :: rest.2.2)

/-- The Image state of image.go: three term partitions, the subscriber
position counter, the mask and shift derived from the power-of-two term
length, the closed flag, and a count of how many times the underlying
log buffer mapping has been released, which NewImage starts at zero. -/
structure Image where
  termBuffers : Nat → Mem
  subscriberPosition : Int
  termLengthMask : Int
  positionBitsToShift : Nat
  isClosed : Bool
  logBuffersCloseCount : Nat

/-- The Poll operation of image.go: on a closed image the ImageClosed
sentinel is returned with no side effect; otherwise the subscriber
position is read, decoded into a partition index and a term offset, the
selected partition is scanned by term.Read, and the subscriber position
is advanced by the net bytes consumed when that amount is positive.
Returns the new image state, the result of the scan and the delivered
fragments. -/
def imagePoll (img : Image) (fragmentLimit : Nat) : Image × Int × List (Int × Int) :=
  if img.isClosed then (img, ImageClosed, [])
  else
    let position := img.subscriberPosition
    let termOffset := toInt32 (andMask position img.termLengthMask)
    let index := indexByPosition position img.positionBitsToShift
    let termBuffer := img.termBuffers index.toNat
    let scanned := termRead termBuffer (img.termLengthMask + 1) termOffset fragmentLimit
    let offset := scanned.1
    let newPosition := position + (offset - termOffset)
    if newPosition > position then
      ({ img with subscriberPosition := newPosition }, scanned.2.1, scanned.2.2)
    else (img, scanned.2.1, scanned.2.2)

/-- The Close operation of image.go: a one-shot compare-and-set from open
to closed; only the first call releases the underlying log buffer
mapping, a second call observes the closed flag and performs no release. -/
def imageClose (img : Image) : Image :=
  if img.isClosed then img
  else { img with isClosed := true, logBuffersCloseCount := img.logBuffersCloseCount + 1 }

/-! The ManyToOne Init constructor and the atomic Buffer bounds check. -/

/-- The field layout a ManyToOne computes in Init (manytoone.go): the
payload capacity, the derived maximum message length and the five
trailer cell indices. -/
structure ManyToOneLayout where
  capacity : Int
  maxMsgLength : Int
  tailPositionIndex : Int
  headCachePositionIndex : Int
  headPositionIndex : Int
  correlationIDCounterIndex : Int
  consumerHeartbeatIndex : Int

/-- The Init method of manytoone.go over a buffer of the given total
length: the payload capacity is the buffer capacity less the trailer
length, the power-of-two test is evaluated and its result discarded
exactly as in the source, and the remaining fields are computed
unconditionally.  Division is the Go int32 truncating division. -/
def manyToOneInit (bufferCapacity : Int) : ManyToOneLayout :=
  let capacity := bufferCapacity - trailerLength
  let _ := IsPowerOfTwo capacity
  { capacity := capacity
    maxMsgLength := Int.tdiv capacity 8
    tailPositionIndex := capacity + tailPositionOffset
    headCachePositionIndex := capacity + headCachePositionOffset
    headPositionIndex := capacity + headPositionOffset
    correlationIDCounterIndex := capacity + correlationCounterOffset
    consumerHeartbeatIndex := capacity + consumerHeartbeatOffset }

/-- The atomic Buffer of the atomic package: a raw pointer plus a length,
modelled as a byte map plus the length. -/
structure Buffer where
  length : Int
  mem : Mem

/-- The BoundsCheck method of the atomic Buffer: the access is fatal
exactly when index plus length exceeds the buffer length; the sum is a
Go int32 addition.  No check of the lower bound is performed. -/
def boundsCheckFatal (bufLength index length : Int) : Bool :=
  toInt32 (index + length) > bufLength

/-- The GetInt64 accessor of the atomic Buffer: fatal bounds violations
are modelled as none, otherwise the 8 bytes at the offset are loaded. -/
def bufferGetInt64 (b : Buffer) (offset : Int) : Option Int :=
  if boundsCheckFatal b.length offset 8 then none
  else some (getInt64 b.mem offset)

/-- The PutInt32 accessor of the atomic Buffer: fatal bounds violations
are modelled as none, otherwise the 4 bytes at the offset are stored. -/
def bufferPutInt32 (b : Buffer) (offset : Int) (v : Int) : Option Buffer :=
  if boundsCheckFatal b.length offset 4 then none
  else some { b with mem := putInt32 b.mem offset v }

/-- The PutBytes accessor of the atomic Buffer: both the destination and
the source ranges are bounds checked, then the bytes are copied. -/
def bufferPutBytes (b : Buffer) (index : Int) (src : Buffer) (srcIndex length : Int) :
    Option Buffer :=
  if boundsCheckFatal b.length index length then none
  else if boundsCheckFatal src.length srcIndex length then none
  else some { b with mem := putBytes b.mem index src.mem srcIndex length }

theorem emod_shift (x base cap : Int) (hcap : 0 < cap) (hb : base % cap = 0)
    (h1 : base ≤ x) (h2 : x < base + cap) : x % cap = x - base := by
  obtain ⟨t, ht⟩ := Int.dvd_of_emod_eq_zero hb
  have hx : x = (x - base) + cap * t := by omega
  calc x % cap = ((x - base) + cap * t) % cap := by rw [← hx]
    _ = (x - base) % cap := Int.add_mul_emod_self_left (x - base) cap t
    _ = x - base := Int.emod_eq_of_lt (by omega) (by omega)

theorem tailBase_emod (cap tail : Int) :
    (tail - tail % cap) % cap = 0 := by
  conv_lhs => rw [Int.sub_emod, Int.emod_emod_of_dvd tail dvd_rfl]
  simp

theorem cap_lt_two_pow_31 (k : Nat) (hk : k ≤ 30) : (2 : Int) ^ k < 2 ^ 31 := by
  have h : (2 : Int) ^ k ≤ 2 ^ 30 := pow_le_pow_right₀ (by norm_num) hk
  omega

/-- Preservation of the counter relation by a single claimCapacity call,
whatever its outcome. -/
theorem claimCapacity_preserves_RingInv (s : ManyToOne) (k : Nat) (R : Int)
    (hcap : s.capacity = 2 ^ k) (hk : k ≤ 30) (hinv : RingInv s)
    (hR : 0 < R) (htb : s.tail < 2 ^ 62) :
    RingInv (claimCapacity s R).1 := by
  obtain ⟨hhc0, hhc, hht, hsp, hsp2⟩ := hinv
  have hcpos : (0 : Int) < s.capacity := by rw [hcap]; positivity
  have hc31 : s.capacity < 2 ^ 31 := by rw [hcap]; exact cap_lt_two_pow_31 k hk
  have hmask_t : andMask s.tail (s.capacity - 1) = s.tail % s.capacity := by
    rw [hcap]; exact andMask_pow2 _ k (by omega) (by omega)
  have hmask_h : andMask s.head (s.capacity - 1) = s.head % s.capacity := by
    rw [hcap]; exact andMask_pow2 _ k (by omega) (by omega)
  have hmask_hc : andMask s.headCache (s.capacity - 1) = s.headCache % s.capacity := by
    rw [hcap]; exact andMask_pow2 _ k (by omega) (by omega)
  have hrt0 : 0 ≤ s.tail % s.capacity := Int.emod_nonneg _ (by omega)
  have hrt1 : s.tail % s.capacity < s.capacity := Int.emod_lt_of_pos _ hcpos
  have hrh0 : 0 ≤ s.head % s.capacity := Int.emod_nonneg _ (by omega)
  have hrh1 : s.head % s.capacity < s.capacity := Int.emod_lt_of_pos _ hcpos
  have hrhc0 : 0 ≤ s.headCache % s.capacity := Int.emod_nonneg _ (by omega)
  have hrhc1 : s.headCache % s.capacity < s.capacity := Int.emod_lt_of_pos _ hcpos
  have ht1 : toInt32 (s.tail - s.headCache) = s.tail - s.headCache :=
    toInt32_of_bounds _ (by omega) (by omega)
  have ht2 : toInt32 (s.tail - s.head) = s.tail - s.head :=
    toInt32_of_bounds _ (by omega) (by omega)
  have ht3 : toInt32 (s.tail % s.capacity) = s.tail % s.capacity :=
    toInt32_of_bounds _ (by omega) (by omega)
  have ht4 : toInt32 (s.head % s.capacity) = s.head % s.capacity :=
    toInt32_of_bounds _ (by omega) (by omega)
  have ht5 : toInt32 (s.headCache % s.capacity) = s.headCache % s.capacity :=
    toInt32_of_bounds _ (by omega) (by omega)
  have hbase : (s.tail - s.tail % s.capacity) % s.capacity = 0 := tailBase_emod _ _
  have hsh_h : s.tail - s.tail % s.capacity ≤ s.head →
      s.head % s.capacity = s.head - (s.tail - s.tail % s.capacity) := fun hb =>
    emod_shift _ _ _ hcpos hbase hb (by omega)
  have hsh_hc : s.tail - s.tail % s.capacity ≤ s.headCache →
      s.headCache % s.capacity = s.headCache - (s.tail - s.tail % s.capacity) := fun hb =>
    emod_shift _ _ _ hcpos hbase hb (by omega)
  simp only [claimCapacity, claimWithHead, claimCommit]
  simp only [hmask_t, hmask_h, hmask_hc, ht1, ht2, ht3, ht4, ht5]
  split_ifs with h1 h2 h3 h4 h5 h6 h7
  all_goals unfold RingInv
  all_goals try dsimp only
  all_goals omega

/-- Failure of claimCapacity whenever the required capacity plus any
wraparound padding exceeds the capacity available against the live head:
the sentinel is returned and neither the tail nor the record region
changes. -/
theorem claimCapacity_fails (s : ManyToOne) (k : Nat) (R : Int)
    (hcap : s.capacity = 2 ^ k) (hk : k ≤ 30) (hinv : RingInv s)
    (hR : 0 < R) (htb : s.tail < 2 ^ 62)
    (hins : s.capacity - (s.tail - s.head) <
      R + (if s.capacity - s.tail % s.capacity < R
        then s.capacity - s.tail % s.capacity else 0)) :
    (claimCapacity s R).2 = InsufficientCapacity ∧
    (claimCapacity s R).1.tail = s.tail ∧ (claimCapacity s R).1.mem = s.mem := by
  obtain ⟨hhc0, hhc, hht, hsp, hsp2⟩ := hinv
  have hcpos : (0 : Int) < s.capacity := by rw [hcap]; positivity
  have hc31 : s.capacity < 2 ^ 31 := by rw [hcap]; exact cap_lt_two_pow_31 k hk
  have hmask_t : andMask s.tail (s.capacity - 1) = s.tail % s.capacity := by
    rw [hcap]; exact andMask_pow2 _ k (by omega) (by omega)
  have hmask_h : andMask s.head (s.capacity - 1) = s.head % s.capacity := by
    rw [hcap]; exact andMask_pow2 _ k (by omega) (by omega)
  have hmask_hc : andMask s.headCache (s.capacity - 1) = s.headCache % s.capacity := by
    rw [hcap]; exact andMask_pow2 _ k (by omega) (by omega)
  have hrt0 : 0 ≤ s.tail % s.capacity := Int.emod_nonneg _ (by omega)
  have hrt1 : s.tail % s.capacity < s.capacity := Int.emod_lt_of_pos _ hcpos
  have hrh0 : 0 ≤ s.head % s.capacity := Int.emod_nonneg _ (by omega)
  have hrh1 : s.head % s.capacity < s.capacity := Int.emod_lt_of_pos _ hcpos
  have hrhc0 : 0 ≤ s.headCache % s.capacity := Int.emod_nonneg _ (by omega)
  have hrhc1 : s.headCache % s.capacity < s.capacity := Int.emod_lt_of_pos _ hcpos
  have ht1 : toInt32 (s.tail - s.headCache) = s.tail - s.headCache :=
    toInt32_of_bounds _ (by omega) (by omega)
  have ht2 : toInt32 (s.tail - s.head) = s.tail - s.head :=
    toInt32_of_bounds _ (by omega) (by omega)
  have ht3 : toInt32 (s.tail % s.capacity) = s.tail % s.capacity :=
    toInt32_of_bounds _ (by omega) (by omega)
  have ht4 : toInt32 (s.head % s.capacity) = s.head % s.capacity :=
    toInt32_of_bounds _ (by omega) (by omega)
  have ht5 : toInt32 (s.headCache % s.capacity) = s.headCache % s.capacity :=
    toInt32_of_bounds _ (by omega) (by omega)
  have hbase : (s.tail - s.tail % s.capacity) % s.capacity = 0 := tailBase_emod _ _
  have hsh_h : s.tail - s.tail % s.capacity ≤ s.head →
      s.head % s.capacity = s.head - (s.tail - s.tail % s.capacity) := fun hb =>
    emod_shift _ _ _ hcpos hbase hb (by omega)
  have hsh_hc : s.tail - s.tail % s.capacity ≤ s.headCache →
      s.headCache % s.capacity = s.headCache - (s.tail - s.tail % s.capacity) := fun hb =>
    emod_shift _ _ _ hcpos hbase hb (by omega)
  simp only [claimCapacity, claimWithHead, claimCommit]
  simp only [hmask_t, hmask_h, hmask_hc, ht1, ht2, ht3, ht4, ht5]
  split_ifs with h1 h2 h3 h4 h5 h6 h7
  all_goals first
    | exact ⟨rfl, rfl, rfl⟩
    | (exfalso; omega)

/-- A successful claim that needs wraparound padding publishes a padding
record header at the pre-wrap tail index, carrying the remaining bytes to
the buffer end as its length and the reserved padding type id, advances
the tail by the required capacity plus the padding, and returns record
index 0. -/
theorem claimCapacity_padding (s : ManyToOne) (k : Nat) (R : Int)
    (hcap : s.capacity = 2 ^ k) (hk : k ≤ 30) (hinv : RingInv s)
    (hR : 0 < R) (htb : s.tail < 2 ^ 62)
    (hpad : s.capacity - s.tail % s.capacity < R)
    (hsucc : (claimCapacity s R).2 ≠ InsufficientCapacity) :
    (claimCapacity s R).2 = 0 ∧
    getInt32 (claimCapacity s R).1.mem (lengthOffset (s.tail % s.capacity)) =
      s.capacity - s.tail % s.capacity ∧
    getInt32 (claimCapacity s R).1.mem (typeOffset (s.tail % s.capacity)) =
      PaddingMsgTypeID ∧
    (claimCapacity s R).1.tail = s.tail + R + (s.capacity - s.tail % s.capacity) := by
  obtain ⟨hhc0, hhc, hht, hsp, hsp2⟩ := hinv
  have hcpos : (0 : Int) < s.capacity := by rw [hcap]; positivity
  have hc31 : s.capacity < 2 ^ 31 := by rw [hcap]; exact cap_lt_two_pow_31 k hk
  have hmask_t : andMask s.tail (s.capacity - 1) = s.tail % s.capacity := by
    rw [hcap]; exact andMask_pow2 _ k (by omega) (by omega)
  have hmask_h : andMask s.head (s.capacity - 1) = s.head % s.capacity := by
    rw [hcap]; exact andMask_pow2 _ k (by omega) (by omega)
  have hmask_hc : andMask s.headCache (s.capacity - 1) = s.headCache % s.capacity := by
    rw [hcap]; exact andMask_pow2 _ k (by omega) (by omega)
  have hrt0 : 0 ≤ s.tail % s.capacity := Int.emod_nonneg _ (by omega)
  have hrt1 : s.tail % s.capacity < s.capacity := Int.emod_lt_of_pos _ hcpos
  have ht1 : toInt32 (s.tail - s.headCache) = s.tail - s.headCache :=
    toInt32_of_bounds _ (by omega) (by omega)
  have ht2 : toInt32 (s.tail - s.head) = s.tail - s.head :=
    toInt32_of_bounds _ (by omega) (by omega)
  have ht3 : toInt32 (s.tail % s.capacity) = s.tail % s.capacity :=
    toInt32_of_bounds _ (by omega) (by omega)
  have hrh0 : 0 ≤ s.head % s.capacity := Int.emod_nonneg _ (by omega)
  have hrh1 : s.head % s.capacity < s.capacity := Int.emod_lt_of_pos _ hcpos
  have hrhc0 : 0 ≤ s.headCache % s.capacity := Int.emod_nonneg _ (by omega)
  have hrhc1 : s.headCache % s.capacity < s.capacity := Int.emod_lt_of_pos _ hcpos
  have ht4 : toInt32 (s.head % s.capacity) = s.head % s.capacity :=
    toInt32_of_bounds _ (by omega) (by omega)
  have ht5 : toInt32 (s.headCache % s.capacity) = s.headCache % s.capacity :=
    toInt32_of_bounds _ (by omega) (by omega)
  have hlow : ∀ m : Mem,
      getInt32 (putInt64 m (s.tail % s.capacity)
        (MakeHeader (s.capacity - s.tail % s.capacity) PaddingMsgTypeID))
        (lengthOffset (s.tail % s.capacity)) = s.capacity - s.tail % s.capacity := fun m =>
    getInt32_putInt64_header_low m _ _ _ (by omega) (by omega)
  have hhigh : ∀ m : Mem,
      getInt32 (putInt64 m (s.tail % s.capacity)
        (MakeHeader (s.capacity - s.tail % s.capacity) PaddingMsgTypeID))
        (typeOffset (s.tail % s.capacity)) = PaddingMsgTypeID := fun m =>
    getInt32_putInt64_header_high m _ _ _ (by norm_num [PaddingMsgTypeID])
      (by norm_num [PaddingMsgTypeID])
  simp only [typeOffset] at hhigh
  simp only [claimCapacity, claimWithHead, claimCommit] at hsucc ⊢
  simp only [hmask_t, hmask_h, hmask_hc, ht1, ht2, ht3, ht4, ht5] at hsucc ⊢
  split_ifs at hsucc ⊢ with h1 h2 h3 h4 h5
  all_goals first
    | (exact absurd rfl hsucc)
    | (exfalso; omega)
    | (refine ⟨rfl, hlow _, ?_, rfl⟩
       simpa only [typeOffset] using hhigh _)

/-- Reading back a record committed by Write: after the in-progress
header store, the payload copy and the final committed length store, the
length field holds the record length, the type field holds the message
type id, and the payload bytes equal the source bytes. -/
theorem writtenRecord_readback (m : Mem) (recordIndex msgTypeID length : Int)
    (srcBuffer : Mem) (srcIndex : Int)
    (hlen : 0 ≤ length) (hlen31 : length + 8 < 2 ^ 31)
    (htype1 : -(2 ^ 31) ≤ msgTypeID) (htype2 : msgTypeID < 2 ^ 31) :
    getInt32 (putInt32 (putBytes (putInt64 m recordIndex
        (MakeHeader (-(length + 8)) msgTypeID)) (recordIndex + 8) srcBuffer srcIndex length)
        recordIndex (length + 8)) recordIndex = length + 8 ∧
    getInt32 (putInt32 (putBytes (putInt64 m recordIndex
        (MakeHeader (-(length + 8)) msgTypeID)) (recordIndex + 8) srcBuffer srcIndex length)
        recordIndex (length + 8)) (recordIndex + 4) = msgTypeID ∧
    bytesList (putInt32 (putBytes (putInt64 m recordIndex
        (MakeHeader (-(length + 8)) msgTypeID)) (recordIndex + 8) srcBuffer srcIndex length)
        recordIndex (length + 8)) (recordIndex + 8) length =
      bytesList srcBuffer srcIndex length := by
  refine ⟨getInt32_putInt32_same _ _ _ (by omega) (by omega), ?_, ?_⟩
  · show i32ofU (getWord _ (recordIndex + 4) 4) = msgTypeID
    unfold putInt32
    rw [getWord_putWord_outside _ _ _ _ _ _ (by omega)]
    rw [show getWord (putBytes (putInt64 m recordIndex
        (MakeHeader (-(length + 8)) msgTypeID)) (recordIndex + 8) srcBuffer srcIndex length)
        (recordIndex + 4) 4 = getWord (putInt64 m recordIndex
        (MakeHeader (-(length + 8)) msgTypeID)) (recordIndex + 4) 4 from
      getWord_putBytes_outside _ _ _ _ _ _ _ (by omega)]
    exact getInt32_putInt64_header_high m recordIndex _ msgTypeID htype1 htype2
  · unfold bytesList
    apply List.map_congr_left
    intro j hj
    rw [List.mem_range] at hj
    have hj' : (j : Int) < length := by omega
    have hj0 : (0 : Int) ≤ (j : Int) := by omega
    unfold putInt32
    rw [putWord_apply_outside _ _ _ _ _ (by omega)]
    rw [putBytes_apply_in _ _ _ _ _ _ (by omega) (by omega)]
    have harg : srcIndex + (recordIndex + 8 + j - (recordIndex + 8)) = srcIndex + j := by
      ring
    rw [harg]

theorem align_record_pos (length : Int) (h : 0 ≤ length) :
    0 < align (length + HeaderLength) RecordAlignment := by
  unfold align HeaderLength RecordAlignment
  omega

/-- Claim C1: whenever a Write's required capacity, that is the aligned record
length plus the wraparound padding when the record would cross the
physical buffer end, exceeds the capacity available against the live head
counter, claimCapacity returns the InsufficientCapacity sentinel and
Write returns failure, with the tail counter unchanged and no record
bytes written. -/
theorem c1_insufficient_capacity_fails (s : ManyToOne) (k : Nat)
    (msgTypeID srcIndex length : Int) (srcBuffer : Mem)
    (hcap : s.capacity = 2 ^ k) (hk : k ≤ 30) (hinv : RingInv s)
    (htb : s.tail < 2 ^ 62) (hlen : 0 ≤ length)
    (htype : CheckMsgTypeID msgTypeID = true) (hmax : length ≤ s.maxMsgLength)
    (hins : s.capacity - (s.tail - s.head) <
      align (length + HeaderLength) RecordAlignment +
        (if s.capacity - s.tail % s.capacity < align (length + HeaderLength) RecordAlignment
          then s.capacity - s.tail % s.capacity else 0)) :
    (claimCapacity s (align (length + HeaderLength) RecordAlignment)).2 =
      InsufficientCapacity ∧
    (claimCapacity s (align (length + HeaderLength) RecordAlignment)).1.tail = s.tail ∧
    (claimCapacity s (align (length + HeaderLength) RecordAlignment)).1.mem = s.mem ∧
    manyToOneWrite s msgTypeID srcBuffer srcIndex length =
      some ((claimCapacity s (align (length + HeaderLength) RecordAlignment)).1, false) := by
  have hR : 0 < align (length + HeaderLength) RecordAlignment := align_record_pos length hlen
  obtain ⟨hc2, hctail, hcmem⟩ := claimCapacity_fails s k _ hcap hk hinv hR htb hins
  refine ⟨hc2, hctail, hcmem, ?_⟩
  unfold manyToOneWrite
  rw [if_neg (by simp [htype]), if_neg (by omega)]
  exact if_neg (fun h => h hc2)

/-- Claim C1 witness: a full buffer of capacity 1024 with tail 1024 and head 0
rejects a write of payload length 8. -/
theorem c1_insufficient_capacity_fails_witness :
    (claimCapacity (ManyToOne.mk 1024 128 1024 0 0 fun _ => 0)
      (align (8 + HeaderLength) RecordAlignment)).2 = InsufficientCapacity ∧
    (claimCapacity (ManyToOne.mk 1024 128 1024 0 0 fun _ => 0)
      (align (8 + HeaderLength) RecordAlignment)).1.tail =
      (ManyToOne.mk 1024 128 1024 0 0 fun _ => 0 : ManyToOne).tail ∧
    (claimCapacity (ManyToOne.mk 1024 128 1024 0 0 fun _ => 0)
      (align (8 + HeaderLength) RecordAlignment)).1.mem =
      (ManyToOne.mk 1024 128 1024 0 0 fun _ => 0 : ManyToOne).mem ∧
    manyToOneWrite (ManyToOne.mk 1024 128 1024 0 0 fun _ => 0) 7 (fun _ => 0) 0 8 =
      some ((claimCapacity (ManyToOne.mk 1024 128 1024 0 0 fun _ => 0)
        (align (8 + HeaderLength) RecordAlignment)).1, false) :=
  c1_insufficient_capacity_fails (ManyToOne.mk 1024 128 1024 0 0 fun _ => 0) 10 7 0 8
    (fun _ => 0) (by decide) (by decide) (by unfold RingInv; exact ⟨by decide, by decide,
      by decide, by decide, by decide⟩) (by decide) (by decide) (by decide) (by decide)
    (by decide)

/-- Claim C2: the relation tail greater or equal head together with tail minus
head at most capacity holds in the initial state, where tail and head are
both zero, and is preserved by every successful claimCapacity step from
any state satisfying the ring counter relation. -/
theorem c2_counter_invariant (s : ManyToOne) (k : Nat) (requiredCapacity : Int)
    (hcap : s.capacity = 2 ^ k) (hk : k ≤ 30) (hinv : RingInv s)
    (hR : 0 < requiredCapacity) (htb : s.tail < 2 ^ 62)
    (hsuccess : (claimCapacity s requiredCapacity).2 ≠ InsufficientCapacity) :
    (RingInv (initialManyToOne (2 ^ k)) ∧ (initialManyToOne (2 ^ k)).tail = 0 ∧
      (initialManyToOne (2 ^ k)).head = 0) ∧
    (s.head ≤ s.tail ∧ s.tail - s.head ≤ s.capacity) ∧
    RingInv (claimCapacity s requiredCapacity).1 ∧
    (claimCapacity s requiredCapacity).1.head ≤ (claimCapacity s requiredCapacity).1.tail ∧
    (claimCapacity s requiredCapacity).1.tail - (claimCapacity s requiredCapacity).1.head ≤
      (claimCapacity s requiredCapacity).1.capacity := by
  have hpres := claimCapacity_preserves_RingInv s k requiredCapacity hcap hk hinv hR htb
  refine ⟨⟨?_, rfl, rfl⟩, ⟨hinv.2.2.1, hinv.2.2.2.1⟩, hpres, hpres.2.2.1, hpres.2.2.2.1⟩
  unfold RingInv initialManyToOne
  dsimp only
  have h0 : (0 : Int) ≤ 2 ^ k := by positivity
  exact ⟨le_refl 0, le_refl 0, le_refl 0, by omega, by omega⟩

/-- Claim C2 witness: a successful claim of 16 bytes on a fresh buffer of
capacity 1024. -/
theorem c2_counter_invariant_witness :
    (RingInv (initialManyToOne (2 ^ 10)) ∧ (initialManyToOne (2 ^ 10)).tail = 0 ∧
      (initialManyToOne (2 ^ 10)).head = 0) ∧
    ((initialManyToOne 1024).head ≤ (initialManyToOne 1024).tail ∧
      (initialManyToOne 1024).tail - (initialManyToOne 1024).head ≤
        (initialManyToOne 1024).capacity) ∧
    RingInv (claimCapacity (initialManyToOne 1024) 16).1 ∧
    (claimCapacity (initialManyToOne 1024) 16).1.head ≤
      (claimCapacity (initialManyToOne 1024) 16).1.tail ∧
    (claimCapacity (initialManyToOne 1024) 16).1.tail -
      (claimCapacity (initialManyToOne 1024) 16).1.head ≤
      (claimCapacity (initialManyToOne 1024) 16).1.capacity :=
  c2_counter_invariant (initialManyToOne 1024) 10 16 (by decide) (by decide)
    (by unfold RingInv; exact ⟨by decide, by decide, by decide, by decide, by decide⟩)
    (by decide) (by decide) (by decide)

/-- Claim C3: for a Write whose required capacity exceeds the contiguous space
from the tail's in-buffer offset to the physical buffer end, a successful
claim publishes a padding record at the pre-wrap tail offset whose length
is the remaining bytes to the buffer end and whose type is the reserved
padding type id, and the claimed record index is reset to 0, so the
record written by Write starts at the beginning of the buffer. -/
theorem c3_wrap_publishes_padding (s : ManyToOne) (k : Nat)
    (msgTypeID srcIndex length : Int) (srcBuffer : Mem)
    (hcap : s.capacity = 2 ^ k) (hk : k ≤ 30) (hinv : RingInv s)
    (htb : s.tail < 2 ^ 62) (hlen : 0 ≤ length)
    (htype : CheckMsgTypeID msgTypeID = true) (htype2 : msgTypeID < 2 ^ 31)
    (hmax : length ≤ s.maxMsgLength)
    (hmaxdef : s.maxMsgLength = Int.tdiv s.capacity 8)
    (hpad : s.capacity - s.tail % s.capacity <
      align (length + HeaderLength) RecordAlignment)
    (hsucc : (claimCapacity s (align (length + HeaderLength) RecordAlignment)).2 ≠
      InsufficientCapacity) :
    (claimCapacity s (align (length + HeaderLength) RecordAlignment)).2 = 0 ∧
    getInt32 (claimCapacity s (align (length + HeaderLength) RecordAlignment)).1.mem
      (lengthOffset (s.tail % s.capacity)) = s.capacity - s.tail % s.capacity ∧
    getInt32 (claimCapacity s (align (length + HeaderLength) RecordAlignment)).1.mem
      (typeOffset (s.tail % s.capacity)) = PaddingMsgTypeID ∧
    ∃ s2 : ManyToOne, manyToOneWrite s msgTypeID srcBuffer srcIndex length =
        some (s2, true) ∧
      getInt32 s2.mem (lengthOffset 0) = length + HeaderLength ∧
      getInt32 s2.mem (typeOffset 0) = msgTypeID := by
  have hR : 0 < align (length + HeaderLength) RecordAlignment := align_record_pos length hlen
  have hcpos : (0 : Int) < s.capacity := by rw [hcap]; positivity
  have hc31 : s.capacity < 2 ^ 31 := by rw [hcap]; exact cap_lt_two_pow_31 k hk
  have htypeI : 1 ≤ msgTypeID := by simpa [CheckMsgTypeID] using htype
  have htd : Int.tdiv s.capacity 8 = s.capacity / 8 :=
    Int.tdiv_eq_ediv (by omega) (by omega)
  have hlen31 : length + 8 < 2 ^ 31 := by
    rw [hmaxdef, htd] at hmax
    omega
  obtain ⟨hidx0, hplen, hptype, htail⟩ :=
    claimCapacity_padding s k _ hcap hk hinv hR htb hpad hsucc
  refine ⟨hidx0, hplen, hptype, ?_⟩
  have hw : manyToOneWrite s msgTypeID srcBuffer srcIndex length =
      some ({ (claimCapacity s (align (length + HeaderLength) RecordAlignment)).1 with
        mem := putInt32 (putBytes (putInt64
          (claimCapacity s (align (length + HeaderLength) RecordAlignment)).1.mem
          (0 : Int) (MakeHeader (-(length + HeaderLength)) msgTypeID))
          (encodedMsgOffset 0) srcBuffer srcIndex length) (lengthOffset 0)
          (length + HeaderLength) }, true) := by
    unfold manyToOneWrite
    rw [if_neg (by simp [htype]), if_neg (by omega)]
    dsimp only
    rw [hidx0]
    rw [if_pos (show (0 : Int) ≠ InsufficientCapacity by unfold InsufficientCapacity; omega)]
  refine ⟨_, hw, ?_, ?_⟩
  · have hr := writtenRecord_readback
      ((claimCapacity s (align (length + HeaderLength) RecordAlignment)).1.mem)
      0 msgTypeID length srcBuffer srcIndex hlen hlen31 (by omega) htype2
    simpa only [lengthOffset, typeOffset, encodedMsgOffset, HeaderLength] using hr.1
  · have hr := writtenRecord_readback
      ((claimCapacity s (align (length + HeaderLength) RecordAlignment)).1.mem)
      0 msgTypeID length srcBuffer srcIndex hlen hlen31 (by omega) htype2
    simpa only [lengthOffset, typeOffset, encodedMsgOffset, HeaderLength] using hr.2.1

/-- Claim C3 witness: a write of payload length 8 at tail 1016 in a buffer of
capacity 1024 wraps, publishing an 8-byte padding record at offset 1016
and the message record at offset 0. -/
theorem c3_wrap_publishes_padding_witness :
    (claimCapacity (ManyToOne.mk 1024 128 1016 1016 1016 fun _ => 0)
      (align (8 + HeaderLength) RecordAlignment)).2 = 0 ∧
    getInt32 (claimCapacity (ManyToOne.mk 1024 128 1016 1016 1016 fun _ => 0)
      (align (8 + HeaderLength) RecordAlignment)).1.mem
      (lengthOffset ((ManyToOne.mk 1024 128 1016 1016 1016 fun _ => 0 : ManyToOne).tail %
        (ManyToOne.mk 1024 128 1016 1016 1016 fun _ => 0 : ManyToOne).capacity)) =
      (ManyToOne.mk 1024 128 1016 1016 1016 fun _ => 0 : ManyToOne).capacity -
        (ManyToOne.mk 1024 128 1016 1016 1016 fun _ => 0 : ManyToOne).tail %
          (ManyToOne.mk 1024 128 1016 1016 1016 fun _ => 0 : ManyToOne).capacity ∧
    getInt32 (claimCapacity (ManyToOne.mk 1024 128 1016 1016 1016 fun _ => 0)
      (align (8 + HeaderLength) RecordAlignment)).1.mem
      (typeOffset ((ManyToOne.mk 1024 128 1016 1016 1016 fun _ => 0 : ManyToOne).tail %
        (ManyToOne.mk 1024 128 1016 1016 1016 fun _ => 0 : ManyToOne).capacity)) =
      PaddingMsgTypeID ∧
    ∃ s2 : ManyToOne,
      manyToOneWrite (ManyToOne.mk 1024 128 1016 1016 1016 fun _ => 0) 7 (fun _ => 0) 0 8 =
        some (s2, true) ∧
      getInt32 s2.mem (lengthOffset 0) = 8 + HeaderLength ∧
      getInt32 s2.mem (typeOffset 0) = 7 :=
  c3_wrap_publishes_padding (ManyToOne.mk 1024 128 1016 1016 1016 fun _ => 0) 10 7 0 8
    (fun _ => 0) (by decide) (by decide) (by unfold RingInv; exact ⟨by decide, by decide,
      by decide, by decide, by decide⟩) (by decide) (by decide) (by decide) (by decide)
    (by decide) (by decide) (by decide) (by decide)

/-- Claim C4: a Write whose payload length exceeds maxMsgLength, which Init
derives as capacity divided by 8, is rejected before any state is
touched: checkMsgLength raises the Go panic, modelled as the none result,
so no counter is advanced and no byte is stored. -/
theorem c4_oversize_write_rejected (s : ManyToOne) (msgTypeID srcIndex length : Int)
    (srcBuffer : Mem) (hmaxdef : s.maxMsgLength = Int.tdiv s.capacity 8)
    (h : length > Int.tdiv s.capacity 8) :
    manyToOneWrite s msgTypeID srcBuffer srcIndex length = none := by
  unfold manyToOneWrite
  split
  · rfl
  · rw [if_pos (by omega)]

/-- Claim C4 witness: the spec scenario, capacity 1024 and maxMsgLength 128,
rejecting a write of payload length 129. -/
theorem c4_oversize_write_rejected_witness :
    manyToOneWrite (initialManyToOne 1024) 7 (fun _ => 0) 0 129 = none :=
  c4_oversize_write_rejected (initialManyToOne 1024) 7 0 129 (fun _ => 0)
    (by decide) (by decide)

/-- Claim C5: for every valid position with partition length two to the
positionBitsToShift, indexByPosition lands in the set 0, 1, 2, and
advancing the position by exactly one partition length rotates the
partition index by one modulo 3. -/
theorem c5_index_rotation (p : Int) (bits : Nat) (h0 : 0 ≤ p)
    (h1 : p + 2 ^ bits < 2 ^ 63) :
    (indexByPosition p bits = 0 ∨ indexByPosition p bits = 1 ∨
      indexByPosition p bits = 2) ∧
    indexByPosition (p + 2 ^ bits) bits = (indexByPosition p bits + 1) % 3 := by
  unfold indexByPosition FastMod3 u64
  have hp1 : (0 : Int) < 2 ^ bits := by positivity
  have hc : ((2 ^ bits : Nat) : Int) = (2 : Int) ^ bits := by push_cast; ring
  have h64 : p % 2 ^ 64 = p := by omega
  have h64b : (p + 2 ^ bits) % 2 ^ 64 = p + 2 ^ bits := by omega
  rw [h64, h64b]
  have htn : (p + 2 ^ bits).toNat = p.toNat + 2 ^ bits := by omega
  rw [htn, Nat.shiftRight_eq_div_pow, Nat.shiftRight_eq_div_pow,
    Nat.add_div_right _ (by positivity)]
  constructor
  · have h3 : p.toNat / 2 ^ bits % 3 < 3 := Nat.mod_lt _ (by norm_num)
    omega
  · push_cast
    omega

/-- Claim C7: once an Image is closed, every Poll returns the ImageClosed
sentinel with the image unchanged and no fragment delivered, a second
Close is a no-op, and the underlying log buffer release runs exactly
once, on the first Close. -/
theorem c7_close_idempotent_poll_sentinel (img : Image) (fragmentLimit : Nat)
    (hopen : img.isClosed = false) :
    (imageClose img).isClosed = true ∧
    (imageClose img).logBuffersCloseCount = img.logBuffersCloseCount + 1 ∧
    imageClose (imageClose img) = imageClose img ∧
    imagePoll (imageClose img) fragmentLimit = (imageClose img, ImageClosed, []) ∧
    (imagePoll (imageClose img) fragmentLimit).1.subscriberPosition =
      img.subscriberPosition := by
  unfold imageClose imagePoll
  rw [if_neg (by simp [hopen])]
  refine ⟨rfl, rfl, ?_, ?_, rfl⟩
  · rw [if_pos rfl]
  · rw [if_pos rfl]

/-- Claim C7 witness: an open image with position 0 and close count 0. -/
theorem c7_close_idempotent_poll_sentinel_witness :
    (imageClose (Image.mk (fun _ => fun _ => 0) 0 65535 16 false 0)).isClosed = true ∧
    (imageClose (Image.mk (fun _ => fun _ => 0) 0 65535 16 false 0)).logBuffersCloseCount =
      (Image.mk (fun _ => fun _ => 0) 0 65535 16 false 0 : Image).logBuffersCloseCount + 1 ∧
    imageClose (imageClose (Image.mk (fun _ => fun _ => 0) 0 65535 16 false 0)) =
      imageClose (Image.mk (fun _ => fun _ => 0) 0 65535 16 false 0) ∧
    imagePoll (imageClose (Image.mk (fun _ => fun _ => 0) 0 65535 16 false 0)) 10 =
      (imageClose (Image.mk (fun _ => fun _ => 0) 0 65535 16 false 0), ImageClosed, []) ∧
    (imagePoll (imageClose (Image.mk (fun _ => fun _ => 0) 0 65535 16 false 0)) 10).1.subscriberPosition =
      (Image.mk (fun _ => fun _ => 0) 0 65535 16 false 0 : Image).subscriberPosition :=
  c7_close_idempotent_poll_sentinel (Image.mk (fun _ => fun _ => 0) 0 65535 16 false 0) 10 rfl

/-- Claim C9: the atomic Buffer bounds check tests only the upper bound, so a
negative index whose sum with the access length stays at most the buffer
length passes the check and every accessor proceeds to touch memory at a
negative offset outside the region: GetInt64 at index -8, PutInt32 at
index -4 and PutBytes at index -8 all go through without the fatal
bounds error. -/
theorem c9_negative_index_passes_bounds_check (b src : Buffer) (v : Int)
    (hb : 0 ≤ b.length) (hsrc : 8 ≤ src.length) :
    boundsCheckFatal b.length (-8) 8 = false ∧
    bufferGetInt64 b (-8) = some (getInt64 b.mem (-8)) ∧
    bufferPutInt32 b (-4) v = some { b with mem := putInt32 b.mem (-4) v } ∧
    bufferPutBytes b (-8) src 0 8 =
      some { b with mem := putBytes b.mem (-8) src.mem 0 8 } := by
  have hbc : boundsCheckFatal b.length (-8) 8 = false := by
    unfold boundsCheckFatal toInt32
    simp only [decide_eq_false_iff_not]
    omega
  have hbc4 : boundsCheckFatal b.length (-4) 4 = false := by
    unfold boundsCheckFatal toInt32
    simp only [decide_eq_false_iff_not]
    omega
  have hbcs : boundsCheckFatal src.length 0 8 = false := by
    unfold boundsCheckFatal toInt32
    simp only [decide_eq_false_iff_not]
    omega
  refine ⟨hbc, ?_, ?_, ?_⟩
  · unfold bufferGetInt64
    rw [if_neg (by simp [hbc])]
  · unfold bufferPutInt32
    rw [if_neg (by simp [hbc4])]
  · unfold bufferPutBytes
    rw [if_neg (by simp [hbc]), if_neg (by simp [hbcs])]

/-- Claim C9 witness: a buffer of length 16 and a source buffer of length 16. -/
theorem c9_negative_index_passes_bounds_check_witness :
    boundsCheckFatal (Buffer.mk 16 fun _ => 0 : Buffer).length (-8) 8 = false ∧
    bufferGetInt64 (Buffer.mk 16 fun _ => 0) (-8) =
      some (getInt64 (Buffer.mk 16 fun _ => 0 : Buffer).mem (-8)) ∧
    bufferPutInt32 (Buffer.mk 16 fun _ => 0) (-4) 5 =
      some { (Buffer.mk 16 fun _ => 0 : Buffer) with
        mem := putInt32 (Buffer.mk 16 fun _ => 0 : Buffer).mem (-4) 5 } ∧
    bufferPutBytes (Buffer.mk 16 fun _ => 0) (-8) (Buffer.mk 16 fun _ => 0) 0 8 =
      some { (Buffer.mk 16 fun _ => 0 : Buffer) with
        mem := putBytes (Buffer.mk 16 fun _ => 0 : Buffer).mem (-8)
          (Buffer.mk 16 fun _ => 0 : Buffer).mem 0 8 } :=
  c9_negative_index_passes_bounds_check (Buffer.mk 16 fun _ => 0)
    (Buffer.mk 16 fun _ => 0) 5 (by decide) (by decide)

/-- Claim C10: Init succeeds for every supplied buffer even when the derived
payload capacity is not a power of two: the result of the power-of-two
test is discarded, no error is raised, and maxMsgLength and all trailer
field indices are computed from the derived capacity anyway. -/
theorem c10_init_ignores_power_of_two (bufferCapacity : Int)
    (hnp : IsPowerOfTwo (bufferCapacity - trailerLength) = false) :
    manyToOneInit bufferCapacity =
      ManyToOneLayout.mk (bufferCapacity - trailerLength)
        (Int.tdiv (bufferCapacity - trailerLength) 8)
        (bufferCapacity - trailerLength + tailPositionOffset)
        (bufferCapacity - trailerLength + headCachePositionOffset)
        (bufferCapacity - trailerLength + headPositionOffset)
        (bufferCapacity - trailerLength + correlationCounterOffset)
        (bufferCapacity - trailerLength + consumerHeartbeatOffset) := rfl

/-- Claim C10 witness: a buffer whose derived capacity 100 is not a power of
two is accepted by Init with maxMsgLength 12. -/
theorem c10_init_ignores_power_of_two_witness :
    manyToOneInit (trailerLength + 100) =
      ManyToOneLayout.mk (trailerLength + 100 - trailerLength)
        (Int.tdiv (trailerLength + 100 - trailerLength) 8)
        (trailerLength + 100 - trailerLength + tailPositionOffset)
        (trailerLength + 100 - trailerLength + headCachePositionOffset)
        (trailerLength + 100 - trailerLength + headPositionOffset)
        (trailerLength + 100 - trailerLength + correlationCounterOffset)
        (trailerLength + 100 - trailerLength + consumerHeartbeatOffset) :=
  c10_init_ignores_power_of_two (trailerLength + 100) (by decide)

/-- Claim C5 witness: position 65536 with a 65536-byte partition length. -/
theorem c5_index_rotation_witness :
    (indexByPosition 65536 16 = 0 ∨ indexByPosition 65536 16 = 1 ∨
      indexByPosition 65536 16 = 2) ∧
    indexByPosition (65536 + 2 ^ 16) 16 = (indexByPosition 65536 16 + 1) % 3 :=
  c5_index_rotation 65536 16 (by decide) (by decide)

/-- A scan over exactly one committed non-padding record that ends at the
live tail delivers that record alone. -/
theorem readScan_single (mem : Mem) (capacity tail2 cursor msgTypeID L : Int)
    (hcur : cursor < tail2)
    (hrec : getInt32 mem (lengthOffset (cursor % capacity)) = L + 8)
    (htyp : getInt32 mem (typeOffset (cursor % capacity)) = msgTypeID)
    (hL : 0 ≤ L) (htype1 : 1 ≤ msgTypeID)
    (hend : cursor + align (L + 8) RecordAlignment = tail2) :
    readScan mem capacity tail2 cursor 1 =
      ([(msgTypeID, bytesList mem (encodedMsgOffset (cursor % capacity))
        (L + 8 - HeaderLength))], tail2) := by
  rw [readScan.eq_def]
  rw [dif_neg (by omega), dif_neg (by omega)]
  rw [hrec, htyp]
  rw [dif_neg (by omega)]
  rw [if_neg (by unfold PaddingMsgTypeID; omega)]
  rw [hend]
  rw [readScan.eq_def]
  rw [dif_pos (le_refl tail2)]

/-- A scan that first meets a committed padding record skips it without
delivering anything and continues past it. -/
theorem readScan_padding_skip (mem : Mem) (capacity tail2 cursor : Int) (limit : Nat)
    (hcur : cursor < tail2) (hlim : limit ≠ 0)
    (hrec : getInt32 mem (lengthOffset (cursor % capacity)) =
      capacity - cursor % capacity)
    (hplen : 0 < capacity - cursor % capacity)
    (htyp : getInt32 mem (typeOffset (cursor % capacity)) = PaddingMsgTypeID)
    (hal : (capacity - cursor % capacity) % 8 = 0) :
    readScan mem capacity tail2 cursor limit =
      readScan mem capacity tail2 (cursor + (capacity - cursor % capacity)) limit := by
  rw [readScan.eq_def]
  rw [dif_neg (by omega), dif_neg hlim]
  rw [hrec, htyp]
  rw [dif_neg (by omega)]
  rw [if_pos rfl]
  rw [show align (capacity - cursor % capacity) RecordAlignment =
    capacity - cursor % capacity from by unfold RecordAlignment align; omega]

/-- The readback lemma phrased with the record descriptor offsets used by
Write. -/
theorem writtenRecord_readback_write (m : Mem) (recordIndex msgTypeID length : Int)
    (srcBuffer : Mem) (srcIndex : Int)
    (hlen : 0 ≤ length) (hlen31 : length + 8 < 2 ^ 31)
    (htype1 : -(2 ^ 31) ≤ msgTypeID) (htype2 : msgTypeID < 2 ^ 31) :
    getInt32 (putInt32 (putBytes (putInt64 m recordIndex
        (MakeHeader (-(length + HeaderLength)) msgTypeID)) (encodedMsgOffset recordIndex)
        srcBuffer srcIndex length) (lengthOffset recordIndex) (length + HeaderLength))
      (lengthOffset recordIndex) = length + HeaderLength ∧
    getInt32 (putInt32 (putBytes (putInt64 m recordIndex
        (MakeHeader (-(length + HeaderLength)) msgTypeID)) (encodedMsgOffset recordIndex)
        srcBuffer srcIndex length) (lengthOffset recordIndex) (length + HeaderLength))
      (typeOffset recordIndex) = msgTypeID ∧
    bytesList (putInt32 (putBytes (putInt64 m recordIndex
        (MakeHeader (-(length + HeaderLength)) msgTypeID)) (encodedMsgOffset recordIndex)
        srcBuffer srcIndex length) (lengthOffset recordIndex) (length + HeaderLength))
      (encodedMsgOffset recordIndex) length = bytesList srcBuffer srcIndex length := by
  have hr := writtenRecord_readback m recordIndex msgTypeID length srcBuffer srcIndex
    hlen hlen31 htype1 htype2
  refine ⟨?_, ?_, ?_⟩
  · simpa only [lengthOffset, typeOffset, encodedMsgOffset, HeaderLength] using hr.1
  · simpa only [lengthOffset, typeOffset, encodedMsgOffset, HeaderLength] using hr.2.1
  · simpa only [lengthOffset, typeOffset, encodedMsgOffset, HeaderLength] using hr.2.2

/-- Write-then-read roundtrip from a caught-up state when the record fits
before the physical buffer end. -/
theorem writeReadRoundtrip_nopad (s : ManyToOne) (k : Nat)
    (msgTypeID srcIndex length : Int) (srcBuffer : Mem)
    (hcap : s.capacity = 2 ^ k) (hk5 : 5 ≤ k) (hk : k ≤ 30)
    (hcaught : s.head = s.tail) (hcache : s.headCache = s.tail)
    (htail0 : 0 ≤ s.tail) (htb : s.tail < 2 ^ 62) (halign : s.tail % 8 = 0)
    (hlen : 0 ≤ length) (htype : CheckMsgTypeID msgTypeID = true)
    (htype2 : msgTypeID < 2 ^ 31) (hmax : length ≤ s.maxMsgLength)
    (hmaxdef : s.maxMsgLength = Int.tdiv s.capacity 8)
    (hnp : ¬ (s.capacity - s.tail % s.capacity <
      align (length + HeaderLength) RecordAlignment)) :
    ∃ s2 : ManyToOne,
      manyToOneWrite s msgTypeID srcBuffer srcIndex length = some (s2, true) ∧
      (manyToOneRead s2 1).2.1 = 1 ∧
      (manyToOneRead s2 1).2.2 = [(msgTypeID, bytesList srcBuffer srcIndex length)] := by
  have hcpos : (0 : Int) < s.capacity := by rw [hcap]; positivity
  have hc31 : s.capacity < 2 ^ 31 := by rw [hcap]; exact cap_lt_two_pow_31 k hk
  have hpow8 : s.capacity = 8 * 2 ^ (k - 3) := by
    calc s.capacity = 2 ^ ((k - 3) + 3) := by rw [hcap]; congr 1; omega
    _ = 8 * 2 ^ (k - 3) := by rw [pow_add]; ring
  have hc4 : (4 : Int) ≤ 2 ^ (k - 3) := by
    calc (4 : Int) = 2 ^ 2 := by norm_num
    _ ≤ 2 ^ (k - 3) := pow_le_pow_right₀ (by norm_num) (by omega)
  have htd : Int.tdiv s.capacity 8 = 2 ^ (k - 3) := by
    rw [Int.tdiv_eq_ediv (by omega) (by norm_num), hpow8]
    exact Int.mul_ediv_cancel_left _ (by norm_num)
  have hmax' : length ≤ 2 ^ (k - 3) := by rw [hmaxdef, htd] at hmax; exact hmax
  have htypeI : 1 ≤ msgTypeID := by simpa [CheckMsgTypeID] using htype
  have hRdef : align (length + HeaderLength) RecordAlignment =
      (length + 8 + 7) / 8 * 8 := by
    unfold align HeaderLength RecordAlignment
    omega
  have hR8 : align (length + HeaderLength) RecordAlignment % 8 = 0 := by rw [hRdef]; omega
  have hR1 : length + 8 ≤ align (length + HeaderLength) RecordAlignment := by
    rw [hRdef]; omega
  have hR2 : align (length + HeaderLength) RecordAlignment ≤ length + 15 := by
    rw [hRdef]; omega
  have hRcap : align (length + HeaderLength) RecordAlignment ≤ s.capacity := by omega
  have hlen31 : length + 8 < 2 ^ 31 := by omega
  have hmask_t : andMask s.tail (s.capacity - 1) = s.tail % s.capacity := by
    rw [hcap]; exact andMask_pow2 _ k (by omega) (by omega)
  have hrt0 : 0 ≤ s.tail % s.capacity := Int.emod_nonneg _ (by omega)
  have hrt1 : s.tail % s.capacity < s.capacity := Int.emod_lt_of_pos _ hcpos
  have ht3 : toInt32 (s.tail % s.capacity) = s.tail % s.capacity :=
    toInt32_of_bounds _ (by omega) (by omega)
  have ht0 : toInt32 (0 : Int) = 0 := by decide
  have hclaimA : claimCapacity s (align (length + HeaderLength) RecordAlignment) =
      ({ s with tail := s.tail + align (length + HeaderLength) RecordAlignment },
        s.tail % s.capacity) := by
    simp only [claimCapacity, claimWithHead, claimCommit]
    rw [hcache]
    simp only [sub_self, ht0, hmask_t, ht3]
    rw [if_neg (by omega), if_neg (by omega)]
  have hwA : manyToOneWrite s msgTypeID srcBuffer srcIndex length =
      some ({ s with
          tail := s.tail + align (length + HeaderLength) RecordAlignment
          mem := putInt32 (putBytes (putInt64 s.mem (s.tail % s.capacity)
            (MakeHeader (-(length + HeaderLength)) msgTypeID))
            (encodedMsgOffset (s.tail % s.capacity)) srcBuffer srcIndex length)
            (lengthOffset (s.tail % s.capacity)) (length + HeaderLength) }, true) := by
    unfold manyToOneWrite
    rw [if_neg (by simp [htype]), if_neg (by omega)]
    dsimp only
    rw [hclaimA]
    rw [if_pos (show s.tail % s.capacity ≠ InsufficientCapacity from by
      unfold InsufficientCapacity; omega)]
  have hrb := writtenRecord_readback_write s.mem (s.tail % s.capacity) msgTypeID length
    srcBuffer srcIndex hlen hlen31 (by omega) htype2
  have hread := readScan_single
    (putInt32 (putBytes (putInt64 s.mem (s.tail % s.capacity)
      (MakeHeader (-(length + HeaderLength)) msgTypeID))
      (encodedMsgOffset (s.tail % s.capacity)) srcBuffer srcIndex length)
      (lengthOffset (s.tail % s.capacity)) (length + HeaderLength))
    s.capacity (s.tail + align (length + HeaderLength) RecordAlignment) s.tail
    msgTypeID length (by omega) hrb.1 hrb.2.1 hlen htypeI rfl
  refine ⟨_, hwA, ?_, ?_⟩
  · unfold manyToOneRead
    dsimp only
    rw [hcaught, hread]
    rfl
  · unfold manyToOneRead
    dsimp only
    rw [hcaught, hread]
    dsimp only
    rw [show length + 8 - HeaderLength = length from by unfold HeaderLength; ring]
    rw [hrb.2.2]

theorem getInt32_putInt32_outside (m : Mem) (off v off2 : Int)
    (h : off2 + 4 ≤ off ∨ off + 4 ≤ off2) :
    getInt32 (putInt32 m off v) off2 = getInt32 m off2 := by
  unfold getInt32 putInt32
  rw [getWord_putWord_outside _ _ _ _ _ _ (by omega)]

theorem getInt32_putInt64_outside (m : Mem) (off v off2 : Int)
    (h : off2 + 4 ≤ off ∨ off + 8 ≤ off2) :
    getInt32 (putInt64 m off v) off2 = getInt32 m off2 := by
  unfold getInt32 putInt64
  rw [getWord_putWord_outside _ _ _ _ _ _ (by omega)]

theorem getInt32_putBytes_outside (m : Mem) (idx : Int) (src : Mem) (si len off2 : Int)
    (h : off2 + 4 ≤ idx ∨ idx + len ≤ off2) :
    getInt32 (putBytes m idx src si len) off2 = getInt32 m off2 := by
  unfold getInt32
  rw [getWord_putBytes_outside _ _ _ _ _ _ _ (by omega)]

/-- Write-then-read roundtrip from a caught-up state when the record must
wrap: the claim publishes a padding record at the pre-wrap tail offset,
the record is written at offset 0, and the reader skips the padding and
delivers the record. -/
theorem writeReadRoundtrip_pad (s : ManyToOne) (k : Nat)
    (msgTypeID srcIndex length : Int) (srcBuffer : Mem)
    (hcap : s.capacity = 2 ^ k) (hk5 : 5 ≤ k) (hk : k ≤ 30)
    (hcaught : s.head = s.tail) (hcache : s.headCache = s.tail)
    (htail0 : 0 ≤ s.tail) (htb : s.tail < 2 ^ 62) (halign : s.tail % 8 = 0)
    (hlen : 0 ≤ length) (htype : CheckMsgTypeID msgTypeID = true)
    (htype2 : msgTypeID < 2 ^ 31) (hmax : length ≤ s.maxMsgLength)
    (hmaxdef : s.maxMsgLength = Int.tdiv s.capacity 8)
    (hpadB : s.capacity - s.tail % s.capacity <
      align (length + HeaderLength) RecordAlignment) :
    ∃ s2 : ManyToOne,
      manyToOneWrite s msgTypeID srcBuffer srcIndex length = some (s2, true) ∧
      (manyToOneRead s2 1).2.1 = 1 ∧
      (manyToOneRead s2 1).2.2 = [(msgTypeID, bytesList srcBuffer srcIndex length)] := by
  have hcpos : (0 : Int) < s.capacity := by rw [hcap]; positivity
  have hc31 : s.capacity < 2 ^ 31 := by rw [hcap]; exact cap_lt_two_pow_31 k hk
  have hpow8 : s.capacity = 8 * 2 ^ (k - 3) := by
    calc s.capacity = 2 ^ ((k - 3) + 3) := by rw [hcap]; congr 1; omega
    _ = 8 * 2 ^ (k - 3) := by rw [pow_add]; ring
  have hc4 : (4 : Int) ≤ 2 ^ (k - 3) := by
    calc (4 : Int) = 2 ^ 2 := by norm_num
    _ ≤ 2 ^ (k - 3) := pow_le_pow_right₀ (by norm_num) (by omega)
  have htd : Int.tdiv s.capacity 8 = 2 ^ (k - 3) := by
    rw [Int.tdiv_eq_ediv (by omega) (by norm_num), hpow8]
    exact Int.mul_ediv_cancel_left _ (by norm_num)
  have hmax' : length ≤ 2 ^ (k - 3) := by rw [hmaxdef, htd] at hmax; exact hmax
  have htypeI : 1 ≤ msgTypeID := by simpa [CheckMsgTypeID] using htype
  have hRdef : align (length + HeaderLength) RecordAlignment =
      (length + 8 + 7) / 8 * 8 := by
    unfold align HeaderLength RecordAlignment
    omega
  have hR8 : align (length + HeaderLength) RecordAlignment % 8 = 0 := by rw [hRdef]; omega
  have hR1 : length + 8 ≤ align (length + HeaderLength) RecordAlignment := by
    rw [hRdef]; omega
  have hR2 : align (length + HeaderLength) RecordAlignment ≤ length + 15 := by
    rw [hRdef]; omega
  have hRcap : align (length + HeaderLength) RecordAlignment ≤ s.capacity := by omega
  have hlen31 : length + 8 < 2 ^ 31 := by omega
  have hmask_t : andMask s.tail (s.capacity - 1) = s.tail % s.capacity := by
    rw [hcap]; exact andMask_pow2 _ k (by omega) (by omega)
  have hrt0 : 0 ≤ s.tail % s.capacity := Int.emod_nonneg _ (by omega)
  have hrt1 : s.tail % s.capacity < s.capacity := Int.emod_lt_of_pos _ hcpos
  have ht3 : toInt32 (s.tail % s.capacity) = s.tail % s.capacity :=
    toInt32_of_bounds _ (by omega) (by omega)
  have ht0 : toInt32 (0 : Int) = 0 := by decide
  have hdvd : (8 : Int) ∣ s.capacity := ⟨2 ^ (k - 3), hpow8⟩
  have htm8 : s.tail % s.capacity % 8 = 0 := by
    rw [Int.emod_emod_of_dvd _ hdvd, halign]
  have hcap8 : s.capacity % 8 = 0 := by omega
  have hRle : align (length + HeaderLength) RecordAlignment ≤ s.tail % s.capacity := by
    omega
  have hclaimB : claimCapacity s (align (length + HeaderLength) RecordAlignment) =
      ({ s with
          tail := s.tail + align (length + HeaderLength) RecordAlignment +
            (s.capacity - s.tail % s.capacity)
          mem := putInt64 s.mem (s.tail % s.capacity)
            (MakeHeader (s.capacity - s.tail % s.capacity) PaddingMsgTypeID) }, 0) := by
    simp only [claimCapacity, claimWithHead, claimCommit]
    rw [hcache]
    simp only [sub_self, ht0, hmask_t, ht3]
    rw [if_neg (by omega), if_pos (by omega), if_neg (by omega)]
  have hwB : manyToOneWrite s msgTypeID srcBuffer srcIndex length =
      some ({ s with
          tail := s.tail + align (length + HeaderLength) RecordAlignment +
            (s.capacity - s.tail % s.capacity)
          mem := putInt32 (putBytes (putInt64
            (putInt64 s.mem (s.tail % s.capacity)
              (MakeHeader (s.capacity - s.tail % s.capacity) PaddingMsgTypeID))
            (0 : Int) (MakeHeader (-(length + HeaderLength)) msgTypeID))
            (encodedMsgOffset 0) srcBuffer srcIndex length)
            (lengthOffset 0) (length + HeaderLength) }, true) := by
    unfold manyToOneWrite
    rw [if_neg (by simp [htype]), if_neg (by omega)]
    dsimp only
    rw [hclaimB]
    rw [if_pos (show (0 : Int) ≠ InsufficientCapacity from by
      unfold InsufficientCapacity; omega)]
  have hrbB := writtenRecord_readback_write
    (putInt64 s.mem (s.tail % s.capacity)
      (MakeHeader (s.capacity - s.tail % s.capacity) PaddingMsgTypeID))
    0 msgTypeID length srcBuffer srcIndex hlen hlen31 (by omega) htype2
  have hpadl : getInt32 (putInt32 (putBytes (putInt64
      (putInt64 s.mem (s.tail % s.capacity)
        (MakeHeader (s.capacity - s.tail % s.capacity) PaddingMsgTypeID))
      (0 : Int) (MakeHeader (-(length + HeaderLength)) msgTypeID))
      (encodedMsgOffset 0) srcBuffer srcIndex length)
      (lengthOffset 0) (length + HeaderLength))
      (lengthOffset (s.tail % s.capacity)) = s.capacity - s.tail % s.capacity := by
    rw [getInt32_putInt32_outside _ _ _ _
      (by simp only [lengthOffset]; omega)]
    rw [getInt32_putBytes_outside _ _ _ _ _ _
      (by simp only [lengthOffset, encodedMsgOffset, HeaderLength]; omega)]
    rw [getInt32_putInt64_outside _ _ _ _
      (by simp only [lengthOffset]; omega)]
    exact getInt32_putInt64_header_low _ _ _ _ (by omega) (by omega)
  have hpadt : getInt32 (putInt32 (putBytes (putInt64
      (putInt64 s.mem (s.tail % s.capacity)
        (MakeHeader (s.capacity - s.tail % s.capacity) PaddingMsgTypeID))
      (0 : Int) (MakeHeader (-(length + HeaderLength)) msgTypeID))
      (encodedMsgOffset 0) srcBuffer srcIndex length)
      (lengthOffset 0) (length + HeaderLength))
      (typeOffset (s.tail % s.capacity)) = PaddingMsgTypeID := by
    rw [getInt32_putInt32_outside _ _ _ _
      (by simp only [lengthOffset, typeOffset]; omega)]
    rw [getInt32_putBytes_outside _ _ _ _ _ _
      (by simp only [typeOffset, encodedMsgOffset, HeaderLength]; omega)]
    rw [getInt32_putInt64_outside _ _ _ _
      (by simp only [typeOffset]; omega)]
    exact getInt32_putInt64_header_high _ _ _ _
      (by norm_num [PaddingMsgTypeID]) (by norm_num [PaddingMsgTypeID])
  have hskip := readScan_padding_skip
    (putInt32 (putBytes (putInt64
      (putInt64 s.mem (s.tail % s.capacity)
        (MakeHeader (s.capacity - s.tail % s.capacity) PaddingMsgTypeID))
      (0 : Int) (MakeHeader (-(length + HeaderLength)) msgTypeID))
      (encodedMsgOffset 0) srcBuffer srcIndex length)
      (lengthOffset 0) (length + HeaderLength))
    s.capacity
    (s.tail + align (length + HeaderLength) RecordAlignment +
      (s.capacity - s.tail % s.capacity))
    s.tail 1 (by omega) one_ne_zero hpadl (by omega) hpadt (by omega)
  have hc2mod : (s.tail + (s.capacity - s.tail % s.capacity)) % s.capacity = 0 := by
    rw [show s.tail + (s.capacity - s.tail % s.capacity) =
      (s.tail - s.tail % s.capacity) + s.capacity * 1 from by ring]
    rw [Int.add_mul_emod_self_left]
    exact tailBase_emod s.capacity s.tail
  have hrec2 : getInt32 (putInt32 (putBytes (putInt64
      (putInt64 s.mem (s.tail % s.capacity)
        (MakeHeader (s.capacity - s.tail % s.capacity) PaddingMsgTypeID))
      (0 : Int) (MakeHeader (-(length + HeaderLength)) msgTypeID))
      (encodedMsgOffset 0) srcBuffer srcIndex length)
      (lengthOffset 0) (length + HeaderLength))
      (lengthOffset ((s.tail + (s.capacity - s.tail % s.capacity)) % s.capacity)) =
      length + HeaderLength := by
    rw [hc2mod]
    exact hrbB.1
  have htyp2 : getInt32 (putInt32 (putBytes (putInt64
      (putInt64 s.mem (s.tail % s.capacity)
        (MakeHeader (s.capacity - s.tail % s.capacity) PaddingMsgTypeID))
      (0 : Int) (MakeHeader (-(length + HeaderLength)) msgTypeID))
      (encodedMsgOffset 0) srcBuffer srcIndex length)
      (lengthOffset 0) (length + HeaderLength))
      (typeOffset ((s.tail + (s.capacity - s.tail % s.capacity)) % s.capacity)) =
      msgTypeID := by
    rw [hc2mod]
    exact hrbB.2.1
  have hend2 : s.tail + (s.capacity - s.tail % s.capacity) +
      align (length + HeaderLength) RecordAlignment =
      s.tail + align (length + HeaderLength) RecordAlignment +
        (s.capacity - s.tail % s.capacity) := by
    ring
  have hread2 := readScan_single
    (putInt32 (putBytes (putInt64
      (putInt64 s.mem (s.tail % s.capacity)
        (MakeHeader (s.capacity - s.tail % s.capacity) PaddingMsgTypeID))
      (0 : Int) (MakeHeader (-(length + HeaderLength)) msgTypeID))
      (encodedMsgOffset 0) srcBuffer srcIndex length)
      (lengthOffset 0) (length + HeaderLength))
    s.capacity
    (s.tail + align (length + HeaderLength) RecordAlignment +
      (s.capacity - s.tail % s.capacity))
    (s.tail + (s.capacity - s.tail % s.capacity))
    msgTypeID length (by omega) hrec2 htyp2 hlen htypeI hend2
  refine ⟨_, hwB, ?_, ?_⟩
  · unfold manyToOneRead
    dsimp only
    rw [hcaught, hskip, hread2]
    rfl
  · unfold manyToOneRead
    dsimp only
    rw [hcaught, hskip, hread2]
    dsimp only
    rw [hc2mod]
    rw [show length + 8 - HeaderLength = length from by unfold HeaderLength; ring]
    rw [hrbB.2.2]

/-- Claim C8: for every payload of length at most maxMsgLength and valid type
id, a Write from a caught-up ring buffer state succeeds, and a subsequent
Read delivers the handler exactly one message whose type id matches and
whose payload bytes are identical to the bytes written, whether or not
the record had to wrap past the buffer end. -/
theorem c8_write_read_roundtrip (s : ManyToOne) (k : Nat)
    (msgTypeID srcIndex length : Int) (srcBuffer : Mem)
    (hcap : s.capacity = 2 ^ k) (hk5 : 5 ≤ k) (hk : k ≤ 30)
    (hcaught : s.head = s.tail) (hcache : s.headCache = s.tail)
    (htail0 : 0 ≤ s.tail) (htb : s.tail < 2 ^ 62) (halign : s.tail % 8 = 0)
    (hlen : 0 ≤ length) (htype : CheckMsgTypeID msgTypeID = true)
    (htype2 : msgTypeID < 2 ^ 31) (hmax : length ≤ s.maxMsgLength)
    (hmaxdef : s.maxMsgLength = Int.tdiv s.capacity 8) :
    ∃ s2 : ManyToOne,
      manyToOneWrite s msgTypeID srcBuffer srcIndex length = some (s2, true) ∧
      (manyToOneRead s2 1).2.1 = 1 ∧
      (manyToOneRead s2 1).2.2 = [(msgTypeID, bytesList srcBuffer srcIndex length)] := by
  by_cases hpad : s.capacity - s.tail % s.capacity <
      align (length + HeaderLength) RecordAlignment
  · exact writeReadRoundtrip_pad s k msgTypeID srcIndex length srcBuffer hcap hk5 hk
      hcaught hcache htail0 htb halign hlen htype htype2 hmax hmaxdef hpad
  · exact writeReadRoundtrip_nopad s k msgTypeID srcIndex length srcBuffer hcap hk5 hk
      hcaught hcache htail0 htb halign hlen htype htype2 hmax hmaxdef hpad

/-- Claim C8 witness: the spec scenario, a 5-byte payload with type id 7 on a
fresh buffer of capacity 1024. -/
theorem c8_write_read_roundtrip_witness :
    ∃ s2 : ManyToOne,
      manyToOneWrite (initialManyToOne 1024) 7
        (fun a => if a = 0 then 104 else if a = 1 then 101 else if a = 2 then 108
          else if a = 3 then 108 else if a = 4 then 111 else 0) 0 5 = some (s2, true) ∧
      (manyToOneRead s2 1).2.1 = 1 ∧
      (manyToOneRead s2 1).2.2 = [(7,
        bytesList (fun a => if a = 0 then 104 else if a = 1 then 101 else if a = 2 then 108
          else if a = 3 then 108 else if a = 4 then 111 else 0) 0 5)] :=
  c8_write_read_roundtrip (initialManyToOne 1024) 10 7 0 5
    (fun a => if a = 0 then 104 else if a = 1 then 101 else if a = 2 then 108
      else if a = 3 then 108 else if a = 4 then 111 else 0)
    (by decide) (by decide) (by decide) (by decide) (by decide) (by decide) (by decide)
    (by decide) (by decide) (by decide) (by decide) (by decide) (by decide)

/-- Claim C6: Poll advances the subscriber position by exactly the net bytes
consumed by the term scan when that amount is positive and leaves it
unchanged otherwise; with a fragment limit of 0 or nothing published at
the current offset the position is unchanged and no fragment is
delivered; and with exactly one fragment published at the current
position and a fragment limit of at least 1, the handler is invoked
exactly once with that fragment and the position advances by the
record's aligned length. -/
theorem c6_poll_advances_position (img : Image) (k : Nat) (fragmentLimit : Nat)
    (hopen : img.isClosed = false) (hmask : img.termLengthMask = 2 ^ k - 1)
    (hk : k ≤ 30) (hpos0 : 0 ≤ img.subscriberPosition)
    (hpos1 : img.subscriberPosition < 2 ^ 62) :
    ((imagePoll img fragmentLimit).1.subscriberPosition =
      img.subscriberPosition +
        max ((termRead (img.termBuffers
            (indexByPosition img.subscriberPosition img.positionBitsToShift).toNat)
          (img.termLengthMask + 1) (img.subscriberPosition % 2 ^ k) fragmentLimit).1 -
          img.subscriberPosition % 2 ^ k) 0) ∧
    ((fragmentLimit = 0 ∨
        getInt32 (img.termBuffers
            (indexByPosition img.subscriberPosition img.positionBitsToShift).toNat)
          (lengthOffset (img.subscriberPosition % 2 ^ k)) ≤ 0) →
      imagePoll img fragmentLimit = (img, 0, [])) ∧
    (0 < getInt32 (img.termBuffers
          (indexByPosition img.subscriberPosition img.positionBitsToShift).toNat)
        (lengthOffset (img.subscriberPosition % 2 ^ k)) →
      ¬ (getInt32 (img.termBuffers
          (indexByPosition img.subscriberPosition img.positionBitsToShift).toNat)
        (typeOffset (img.subscriberPosition % 2 ^ k)) = PaddingMsgTypeID) →
      1 ≤ fragmentLimit →
      (img.termLengthMask + 1 ≤ img.subscriberPosition % 2 ^ k +
          align (getInt32 (img.termBuffers
              (indexByPosition img.subscriberPosition img.positionBitsToShift).toNat)
            (lengthOffset (img.subscriberPosition % 2 ^ k))) RecordAlignment ∨
        getInt32 (img.termBuffers
            (indexByPosition img.subscriberPosition img.positionBitsToShift).toNat)
          (lengthOffset (img.subscriberPosition % 2 ^ k +
            align (getInt32 (img.termBuffers
                (indexByPosition img.subscriberPosition img.positionBitsToShift).toNat)
              (lengthOffset (img.subscriberPosition % 2 ^ k))) RecordAlignment)) ≤ 0) →
      (imagePoll img fragmentLimit).2.1 = 1 ∧
      (imagePoll img fragmentLimit).2.2 = [(img.subscriberPosition % 2 ^ k,
        getInt32 (img.termBuffers
            (indexByPosition img.subscriberPosition img.positionBitsToShift).toNat)
          (lengthOffset (img.subscriberPosition % 2 ^ k)))] ∧
      (imagePoll img fragmentLimit).1.subscriberPosition =
        img.subscriberPosition + align (getInt32 (img.termBuffers
            (indexByPosition img.subscriberPosition img.positionBitsToShift).toNat)
          (lengthOffset (img.subscriberPosition % 2 ^ k))) RecordAlignment) := by
  have hck : (2 : Int) ^ k < 2 ^ 31 := cap_lt_two_pow_31 k hk
  have hpk : (0 : Int) < 2 ^ k := by positivity
  have hm0 : 0 ≤ img.subscriberPosition % 2 ^ k := Int.emod_nonneg _ (by omega)
  have hm1 : img.subscriberPosition % 2 ^ k < 2 ^ k := Int.emod_lt_of_pos _ hpk
  have htoff : toInt32 (andMask img.subscriberPosition img.termLengthMask) =
      img.subscriberPosition % 2 ^ k := by
    rw [hmask, andMask_pow2 _ k hpos0 (by omega)]
    exact toInt32_of_bounds _ (by omega) (by omega)
  refine ⟨?_, ?_, ?_⟩
  · unfold imagePoll
    rw [if_neg (by simp [hopen])]
    dsimp only
    rw [htoff]
    split_ifs with h
    · dsimp only
      rw [max_eq_left (by omega)]
    · dsimp only
      rw [max_eq_right (by omega)]
      omega
  · intro hb
    unfold imagePoll
    rw [if_neg (by simp [hopen])]
    dsimp only
    rw [htoff]
    rcases hb with hb | hb
    · subst hb
      simp only [termRead]
      rw [if_neg (by omega)]
    · cases fragmentLimit with
      | zero =>
        simp only [termRead]
        rw [if_neg (by omega)]
      | succ l =>
        simp only [termRead]
        rw [if_neg (show ¬ (img.termLengthMask + 1 ≤
          img.subscriberPosition % 2 ^ k) from by omega)]
        rw [if_pos hb]
        rw [if_neg (by omega)]
  · intro hflpos hnp hlim hstop
    obtain ⟨l, rfl⟩ : ∃ l, fragmentLimit = l + 1 := ⟨fragmentLimit - 1, by omega⟩
    unfold imagePoll
    rw [if_neg (by simp [hopen])]
    dsimp only
    rw [htoff]
    simp only [termRead]
    revert hflpos hnp hstop hm0 hm1
    generalize img.termBuffers (indexByPosition img.subscriberPosition
      img.positionBitsToShift).toNat = tb
    generalize img.subscriberPosition % 2 ^ k = toff
    intro hm0 hm1
    revert hm0 hm1
    generalize getInt32 tb (lengthOffset toff) = frameLength
    intro hm0 hm1 hflpos hnp hstop
    rw [if_neg (show ¬ (img.termLengthMask + 1 ≤ toff) from by omega)]
    rw [if_neg (show ¬ (frameLength ≤ 0) from by omega)]
    rw [if_neg hnp]
    have hrest : termRead tb (img.termLengthMask + 1)
        (toff + align frameLength RecordAlignment) l =
        (toff + align frameLength RecordAlignment, 0, []) := by
      cases l with
      | zero => simp only [termRead]
      | succ l2 =>
        simp only [termRead]
        by_cases hcn : img.termLengthMask + 1 ≤ toff + align frameLength RecordAlignment
        · rw [if_pos hcn]
        · rw [if_neg hcn]
          rcases hstop with hstop | hstop
          · exact absurd hstop hcn
          · rw [if_pos hstop]
    rw [hrest]
    have hal8 : 8 ≤ align frameLength RecordAlignment :=
      align_ge_eight frameLength (by omega)
    dsimp only
    split_ifs with h2
    · refine ⟨by norm_num, rfl, ?_⟩
      dsimp only
      ring
    · exfalso
      omega

/-- Claim C6 witness: an open image over a 65536-byte term with one committed
16-byte fragment at offset 0 of the selected partition. -/
theorem c6_poll_advances_position_witness :
    ((imagePoll (Image.mk (fun _ => fun a => if a = 0 then 16 else 0) 0 65535 16 false 0)
        10).1.subscriberPosition =
      0 + max ((termRead (fun a => if a = 0 then 16 else 0) (65535 + 1) 0 10).1 - 0) 0) ∧
    (((10 : Nat) = 0 ∨
        getInt32 (fun a => if a = 0 then 16 else 0) (lengthOffset 0) ≤ 0) →
      imagePoll (Image.mk (fun _ => fun a => if a = 0 then 16 else 0) 0 65535 16 false 0)
        10 =
        (Image.mk (fun _ => fun a => if a = 0 then 16 else 0) 0 65535 16 false 0, 0, [])) ∧
    (0 < getInt32 (fun a => if a = 0 then 16 else 0) (lengthOffset 0) →
      ¬ (getInt32 (fun a => if a = 0 then 16 else 0) (typeOffset 0) = PaddingMsgTypeID) →
      (1 : Nat) ≤ 10 →
      ((65535 : Int) + 1 ≤ 0 +
          align (getInt32 (fun a => if a = 0 then 16 else 0) (lengthOffset 0))
            RecordAlignment ∨
        getInt32 (fun a => if a = 0 then 16 else 0)
          (lengthOffset (0 +
            align (getInt32 (fun a => if a = 0 then 16 else 0) (lengthOffset 0))
              RecordAlignment)) ≤ 0) →
      (imagePoll (Image.mk (fun _ => fun a => if a = 0 then 16 else 0) 0 65535 16 false 0)
        10).2.1 = 1 ∧
      (imagePoll (Image.mk (fun _ => fun a => if a = 0 then 16 else 0) 0 65535 16 false 0)
        10).2.2 = [(0,
          getInt32 (fun a => if a = 0 then 16 else 0) (lengthOffset 0))] ∧
      (imagePoll (Image.mk (fun _ => fun a => if a = 0 then 16 else 0) 0 65535 16 false 0)
        10).1.subscriberPosition =
        0 + align (getInt32 (fun a => if a = 0 then 16 else 0) (lengthOffset 0))
          RecordAlignment) :=
  c6_poll_advances_position
    (Image.mk (fun _ => fun a => if a = 0 then 16 else 0) 0 65535 16 false 0) 16 10
    rfl (by decide) (by decide) (by decide) (by decide)
